import Mathlib

/-!
Verification of the multi-agent research orchestration core of the
jarvis-research-assistant repository, as a shallow embedding in Lean.

The embedded code lives in src/services/geminiService.ts (JSON repair,
retry envelope, agent swarm registry, executor, refiner, arbitration)
and src/components/SourceSidebar.tsx (the quality-control driver loop
handleExecuteWithQualityControl).  Loops that the source writes with a
mutable counter and a while statement are translated to structural
recursion on the number of remaining iterations, keeping the source
counters as explicit arguments; the correspondence is documented at
each definition.  LLM/Gateway responses are inputs, so they appear as
oracle function parameters, and the theorems quantify over them.
-/

/-! ## Character and string primitives (JS semantics on List Char) -/

/-- The opening curly brace character. -/
def braceOpen : Char := Char.ofNat 123

/-- The closing curly brace character. -/
def braceClose : Char := Char.ofNat 125

/-- Check whether sub occurs contiguously in the list, scanning positions. -/
def listHasInfix (sub : List Char) : List Char → Bool
  | [] => sub.isEmpty
  | c :: rest => sub.isPrefixOf (c :: rest) || listHasInfix sub rest

/-- JS String.prototype.includes, modelled on the underlying character lists. -/
def strContains (s sub : String) : Bool := listHasInfix sub.data s.data

/-- Characters removed by JS String.prototype.trim (space, tab, LF, CR,
vertical tab, form feed, NBSP, BOM; the common whitespace set). -/
def jsTrimChar (c : Char) : Bool :=
  c = ' ' ∨ c = '\t' ∨ c = '\n' ∨ c = '\r' ∨ c = Char.ofNat 11 ∨ c = Char.ofNat 12 ∨
  c = Char.ofNat 160 ∨ c = Char.ofNat 65279

/-- JS String.prototype.trim. -/
def jsTrim (s : String) : String :=
  String.mk (((s.data.dropWhile jsTrimChar).reverse.dropWhile jsTrimChar).reverse)

/-- One pass of JS String.prototype.replace with a global literal pattern:
replaces every non-overlapping occurrence of pat, scanning left to right.
The fuel argument is the length of the scanned list; every step consumes at
least one character, so the fuel never runs out on the initial call. -/
def replaceAllGo (pat rep : List Char) : Nat → List Char → List Char
  | 0, cs => cs
  | _ + 1, [] => []
  | fuel + 1, c :: cs =>
    if pat.isPrefixOf (c :: cs) ∧ pat ≠ [] then
      rep ++ replaceAllGo pat rep fuel ((c :: cs).drop pat.length)
    else c :: replaceAllGo pat rep fuel cs

/-- JS s.replace(pattern-as-global-regex, rep) for a literal pattern. -/
def replaceAll (s pat rep : String) : String :=
  String.mk (replaceAllGo pat.data rep.data s.data.length s.data)

/-! ## JSON values and a model of JS JSON.parse

JSON.parse is the parsing primitive the repository relies on; the model
implements the JSON grammar (RFC 8259, which JSON.parse follows): optional
whitespace, objects, arrays, strings with escapes, numbers, true/false/null,
and rejects trailing garbage.  Numeric literals are kept as their validated
lexeme, which is enough for every property in scope. -/

/-- A JSON value.  Numbers carry the validated numeric lexeme. -/
inductive JsonVal
  | null
  | bool (b : Bool)
  | num (lexeme : String)
  | str (s : String)
  | arr (elems : List JsonVal)
  | obj (fields : List (String × JsonVal))

/-- JSON insignificant whitespace (exactly space, tab, LF, CR). -/
def jsonWsChar (c : Char) : Bool := c = ' ' ∨ c = '\t' ∨ c = '\n' ∨ c = '\r'

/-- Skip JSON whitespace. -/
def skipWs (cs : List Char) : List Char := cs.dropWhile jsonWsChar

/-- Value of a hex digit. -/
def hexVal (c : Char) : Option Nat :=
  if '0' ≤ c ∧ c ≤ '9' then some (c.toNat - 48)
  else if 'a' ≤ c ∧ c ≤ 'f' then some (c.toNat - 87)
  else if 'A' ≤ c ∧ c ≤ 'F' then some (c.toNat - 55)
  else none

/-- Parse the body of a JSON string after the opening quote, accumulating
characters in reverse; returns the string and the rest of the input. -/
def parseStringBody : List Char → List Char → Option (String × List Char)
  | _, [] => none
  | acc, c :: rest =>
    if c = '\"' then some (String.mk acc.reverse, rest)
    else if c = '\\' then
      match rest with
      | [] => none
      | e :: rest2 =>
        if e = '\"' then parseStringBody ('\"' :: acc) rest2
        else if e = '\\' then parseStringBody ('\\' :: acc) rest2
        else if e = '/' then parseStringBody ('/' :: acc) rest2
        else if e = 'b' then parseStringBody (Char.ofNat 8 :: acc) rest2
        else if e = 'f' then parseStringBody (Char.ofNat 12 :: acc) rest2
        else if e = 'n' then parseStringBody ('\n' :: acc) rest2
        else if e = 'r' then parseStringBody ('\r' :: acc) rest2
        else if e = 't' then parseStringBody ('\t' :: acc) rest2
        else if e = 'u' then
          match rest2 with
          | h1 :: h2 :: h3 :: h4 :: rest3 =>
            match hexVal h1, hexVal h2, hexVal h3, hexVal h4 with
            | some a, some b, some c3, some d =>
              parseStringBody (Char.ofNat (a * 4096 + b * 256 + c3 * 16 + d) :: acc) rest3
            | _, _, _, _ => none
          | _ => none
        else none
    else if c.toNat < 32 then none
    else parseStringBody (c :: acc) rest

/-- Parse a JSON number (sign, integer part with no leading zero, optional
fraction, optional exponent); returns the lexeme and the rest. -/
def parseNumber (cs : List Char) : Option (String × List Char) :=
  let signSplit : List Char × List Char :=
    match cs with
    | '-' :: r => (['-'], r)
    | _ => ([], cs)
  let sign := signSplit.1
  let cs1 := signSplit.2
  match cs1 with
  | [] => none
  | c :: r =>
    if c = '0' ∨ ¬ c.isDigit then
      if c = '0' then
        parseNumberFracExp sign ['0'] r
      else none
    else
      let ds := cs1.takeWhile Char.isDigit
      parseNumberFracExp sign ds (cs1.dropWhile Char.isDigit)
where
  /-- Parse the optional fraction and exponent after the integer part. -/
  parseNumberFracExp (sign intPart : List Char) (rest : List Char) :
      Option (String × List Char) :=
    let fracSplit : Option (List Char × List Char) :=
      match rest with
      | '.' :: r2 =>
        let fd := r2.takeWhile Char.isDigit
        if fd = [] then none else some ('.' :: fd, r2.dropWhile Char.isDigit)
      | _ => some ([], rest)
    match fracSplit with
    | none => none
    | some (fracPart, rest2) =>
      let expSplit : Option (List Char × List Char) :=
        match rest2 with
        | e :: r3 =>
          if e = 'e' ∨ e = 'E' then
            let signedR3 : List Char × List Char :=
              match r3 with
              | s2 :: r4 => if s2 = '+' ∨ s2 = '-' then ([s2], r4) else ([], r3)
              | [] => ([], r3)
            let ed := signedR3.2.takeWhile Char.isDigit
            if ed = [] then none
            else some (e :: (signedR3.1 ++ ed), signedR3.2.dropWhile Char.isDigit)
          else some ([], rest2)
        | [] => some ([], rest2)
      match expSplit with
      | none => none
      | some (expPart, rest3) =>
        some (String.mk (sign ++ intPart ++ fracPart ++ expPart), rest3)

mutual

/-- Parse one JSON value at the head of the input (whitespace already
skipped); fuel bounds the nesting depth and is decremented at each nested
value, so an initial fuel of input length + 1 always suffices. -/
def parseVal : Nat → List Char → Option (JsonVal × List Char)
  | 0, _ => none
  | fuel + 1, cs =>
    match cs with
    | [] => none
    | c :: rest =>
      if c = braceOpen then
        let cs2 := skipWs rest
        match cs2 with
        | [] => none
        | d :: rest2 =>
          if d = braceClose then some (JsonVal.obj [], rest2)
          else
            match parseObjFields fuel cs2 with
            | some (fs, r) => some (JsonVal.obj fs, r)
            | none => none
      else if c = '[' then
        let cs2 := skipWs rest
        match cs2 with
        | [] => none
        | d :: rest2 =>
          if d = ']' then some (JsonVal.arr [], rest2)
          else
            match parseArrElems fuel cs2 with
            | some (vs, r) => some (JsonVal.arr vs, r)
            | none => none
      else if c = '\"' then
        match parseStringBody [] rest with
        | some (s, r) => some (JsonVal.str s, r)
        | none => none
      else if c = 't' then
        if ['r', 'u', 'e'].isPrefixOf rest then some (JsonVal.bool true, rest.drop 3)
        else none
      else if c = 'f' then
        if ['a', 'l', 's', 'e'].isPrefixOf rest then some (JsonVal.bool false, rest.drop 4)
        else none
      else if c = 'n' then
        if ['u', 'l', 'l'].isPrefixOf rest then some (JsonVal.null, rest.drop 3)
        else none
      else
        match parseNumber cs with
        | some (s, r) => some (JsonVal.num s, r)
        | none => none

/-- Parse the members of a JSON object, positioned at the first key
(whitespace skipped, object known to be non-empty). -/
def parseObjFields : Nat → List Char → Option (List (String × JsonVal) × List Char)
  | 0, _ => none
  | fuel + 1, cs =>
    match cs with
    | [] => none
    | c :: rest =>
      if c = '\"' then
        match parseStringBody [] rest with
        | none => none
        | some (key, r1) =>
          match skipWs r1 with
          | ':' :: r3 =>
            match parseVal fuel (skipWs r3) with
            | none => none
            | some (v, r4) =>
              match skipWs r4 with
              | [] => none
              | d :: r6 =>
                if d = ',' then
                  match parseObjFields fuel (skipWs r6) with
                  | some (fs, r7) => some ((key, v) :: fs, r7)
                  | none => none
                else if d = braceClose then some ([(key, v)], r6)
                else none
          | _ => none
      else none

/-- Parse the elements of a JSON array, positioned at the first element
(whitespace skipped, array known to be non-empty). -/
def parseArrElems : Nat → List Char → Option (List JsonVal × List Char)
  | 0, _ => none
  | fuel + 1, cs =>
    match parseVal fuel cs with
    | none => none
    | some (v, r1) =>
      match skipWs r1 with
      | [] => none
      | d :: r3 =>
        if d = ',' then
          match parseArrElems fuel (skipWs r3) with
          | some (vs, r4) => some (v :: vs, r4)
          | none => none
        else if d = ']' then some ([v], r3)
        else none

end

/-- Model of JS JSON.parse: whitespace, one value, whitespace, end of input. -/
def jsonParse (text : String) : Option JsonVal :=
  match parseVal (text.data.length + 1) (skipWs text.data) with
  | some (v, rest) => if skipWs rest = [] then some v else none
  | none => none

/-! ## balanceJSON and cleanAndParseJSON (geminiService.ts lines 48-125) -/

/-- The character scan of balanceJSON: walks the string tracking whether the
position is inside a string literal, the escape flag, and a stack of expected
closers (head of the list is the top of the stack, matching the end of the
JS array). -/
def balanceScanGo : List Char → Bool → Bool → List Char → Bool × List Char
  | [], inString, _, stack => (inString, stack)
  | c :: rest, inString, escaped, stack =>
    if inString then
      if c = '\\' then balanceScanGo rest inString (!escaped) stack
      else if c = '\"' ∧ escaped = false then balanceScanGo rest false escaped stack
      else balanceScanGo rest inString false stack
    else
      if c = '\"' then balanceScanGo rest true escaped stack
      else if c = braceOpen then balanceScanGo rest inString escaped (braceClose :: stack)
      else if c = '[' then balanceScanGo rest inString escaped (']' :: stack)
      else if c = braceClose then
        balanceScanGo rest inString escaped
          (match stack with
           | t :: ts => if t = braceClose then ts else stack
           | [] => stack)
      else if c = ']' then
        balanceScanGo rest inString escaped
          (match stack with
           | t :: ts => if t = ']' then ts else stack
           | [] => stack)
      else balanceScanGo rest inString escaped stack

/-- balanceJSON: trim, scan, then close an unterminated string and append the
pending closers from the stack, top first. -/
def balanceJSON (jsonString : String) : String :=
  let processed := jsTrim jsonString
  let scanned := balanceScanGo processed.data false false []
  let s1 := if scanned.1 then processed ++ "\"" else processed
  s1 ++ String.mk scanned.2

/-- The cleaned text of parsing strategy 2: strip markdown code fences then
trim (the strategy 3 and 4 inputs are derived from this). -/
def cleanedOf (text : String) : String :=
  jsTrim (replaceAll (replaceAll text "```json" "") "```" "")

/-- Index of the last occurrence of a character, or none. -/
def lastIdxOf (cs : List Char) (c : Char) : Option Nat :=
  match List.findIdx? (fun x => x = c) cs.reverse with
  | some i => some (cs.length - 1 - i)
  | none => none

/-- Parsing strategy 3: extract the substring from the first opening brace to
the last closing brace (JS substring swaps its endpoints when reversed), when
both braces occur. -/
def extractObjectSpan (cleaned : String) : Option String :=
  let cs := cleaned.data
  match List.findIdx? (fun x => x = braceOpen) cs, lastIdxOf cs braceClose with
  | some firstOpen, some lastClose =>
    let a := min firstOpen (lastClose + 1)
    let b := max firstOpen (lastClose + 1)
    some (String.mk ((cs.drop a).take (b - a)))
  | _, _ => none

/-- cleanAndParseJSON: empty input is rejected outright, then the four
strategies run in order (direct parse; strip code fences; extract the
outermost brace span; balance a truncated string), and only when all four
fail is the distinguished unparseable error raised. -/
def cleanAndParseJSON (text : String) : Except String JsonVal :=
  if text = "" then Except.error "Empty response text"
  else
    match jsonParse text with
    | some v => Except.ok v
    | none =>
      let cleaned := cleanedOf text
      match jsonParse cleaned with
      | some v => Except.ok v
      | none =>
        match (extractObjectSpan cleaned).bind jsonParse with
        | some v => Except.ok v
        | none =>
          match jsonParse (balanceJSON cleaned) with
          | some v => Except.ok v
          | none => Except.error "Unable to parse JSON structure from response."

/-! ## Retry envelope (geminiService.ts lines 21-25 and 130-160)

callGeminiWithRetry runs a for loop `for (let i = 0; i < retries; i++)`.
The loop is translated to structural recursion on the number of remaining
iterations (remaining = retries - i on every call, established by the
wrapper), with the loop index i kept as an explicit argument because the
backoff delay and the `i < retries - 1` guard read it.  The abort token is
sampled by abortedPre i at the checkAbort() before attempt i and by
abortedPost i at the catch-clause check after attempt i; the jitter function
models Math.random() * 1000. -/

/-- A JS Error as observed by the retry classifier: optional HTTP status,
error name, message. -/
structure JsError where
  status : Option Nat
  name : String
  message : String
deriving DecidableEq, Repr

/-- Result of one Gateway attempt: a value or a thrown error. -/
inductive AttemptOutcome (α : Type)
  | ok (a : α)
  | err (e : JsError)
deriving DecidableEq, Repr

/-- Terminal outcome of the retry envelope. -/
inductive RetryOutcome (α : Type)
  | ok (a : α)
  | userAborted
  | thrown (e : JsError)
  | retryExhausted
deriving DecidableEq, Repr

/-- Trace of one callGeminiWithRetry run: outcome, number of Gateway
attempts actually issued, and the backoff delays waited between attempts. -/
structure RetryTrace (α : Type) where
  outcome : RetryOutcome α
  calls : Nat
  delays : List Nat
deriving DecidableEq, Repr

/-- Rate-limit classification: status 429 or a message containing 429/quota. -/
def isRateLimit (e : JsError) : Bool :=
  e.status == some 429 || strContains e.message "429" || strContains e.message "quota"

/-- Overload classification: status 503 or a message containing 503/overloaded. -/
def isOverloaded (e : JsError) : Bool :=
  e.status == some 503 || strContains e.message "503" || strContains e.message "overloaded"

/-- The loop body of callGeminiWithRetry; falling out of the loop raises the
"API call failed after max retries" error (RetryOutcome.retryExhausted). -/
def callGeminiWithRetryGo {α : Type} (attempt : Nat → AttemptOutcome α)
    (abortedPre abortedPost : Nat → Bool) (jitter : Nat → Nat)
    (retries baseDelay : Nat) : Nat → Nat → RetryTrace α
  | _, 0 => ⟨RetryOutcome.retryExhausted, 0, []⟩
  | i, remaining + 1 =>
    if abortedPre i then ⟨RetryOutcome.userAborted, 0, []⟩
    else
      match attempt i with
      | AttemptOutcome.ok v => ⟨RetryOutcome.ok v, 1, []⟩
      | AttemptOutcome.err e =>
        if abortedPost i || (e.message == "USER_ABORTED") || (e.name == "AbortError") then
          ⟨RetryOutcome.userAborted, 1, []⟩
        else if (isRateLimit e || isOverloaded e) ∧ i < retries - 1 then
          let r := callGeminiWithRetryGo attempt abortedPre abortedPost jitter retries baseDelay
            (i + 1) remaining
          ⟨r.outcome, r.calls + 1, (baseDelay * 2 ^ i + jitter i) :: r.delays⟩
        else ⟨RetryOutcome.thrown e, 1, []⟩

/-- callGeminiWithRetry (source defaults: retries = 3, baseDelay = 2000). -/
def callGeminiWithRetry {α : Type} (attempt : Nat → AttemptOutcome α)
    (abortedPre abortedPost : Nat → Bool) (jitter : Nat → Nat)
    (retries baseDelay : Nat) : RetryTrace α :=
  callGeminiWithRetryGo attempt abortedPre abortedPost jitter retries baseDelay 0 retries

/-! ## Intent classifier (geminiService.ts lines 430-481)

The Gateway response text is the input; the apiCall closure returns the
default DEEP_RESEARCH object when the text is falsy and otherwise parses it
with cleanAndParseJSON, whose failure is thrown inside the closure and hence
classified by the retry envelope (a parse error is not a rate-limit error, so
it is rethrown on the first attempt). -/

/-- The fail-open default object built when response.text is falsy. -/
def defaultIntentJson : JsonVal :=
  JsonVal.obj [("type", JsonVal.str "DEEP_RESEARCH"), ("reasoning", JsonVal.str "Default")]

/-- The apiCall closure of classifyUserIntent for a given Gateway response
text (none models an absent text field, and the empty string is falsy too). -/
def classifyAttempt (respText : Option String) : AttemptOutcome JsonVal :=
  match respText with
  | none => AttemptOutcome.ok defaultIntentJson
  | some t =>
    if t = "" then AttemptOutcome.ok defaultIntentJson
    else
      match cleanAndParseJSON t with
      | Except.ok v => AttemptOutcome.ok v
      | Except.error m => AttemptOutcome.err ⟨none, "Error", m⟩

/-- classifyUserIntent as observed through the retry envelope (source call:
callGeminiWithRetry(apiCall, 3, 2000)), with no abort in flight. -/
def classifyUserIntent (jitter : Nat → Nat) (respText : Option String) : RetryTrace JsonVal :=
  callGeminiWithRetry (fun _ => classifyAttempt respText)
    (fun _ => false) (fun _ => false) jitter 3 2000

/-! ## Expert registry / agent swarm (geminiService.ts lines 282-416)

agentSwarm is a JS Map from expert name to session; a Map keeps at most one
entry per key, set on an existing key overwrites the value in place, and
iteration order is insertion order.  Sessions are given identities by a
fresh-id counter standing for ai.chats.create; the briefOk oracle tells
whether the briefing send of a document expert succeeded (on failure the
source alerts and skips registering that expert). -/

/-- One expert session: name, the identity of its chat session, readiness. -/
structure AgentSession where
  fileName : String
  chat : Nat
  isReady : Bool
deriving DecidableEq, Repr

/-- The process-wide swarm: the Map entries in insertion order plus the
fresh-session counter. -/
structure SwarmState where
  agentSwarm : List (String × AgentSession)
  nextChatId : Nat
deriving DecidableEq, Repr

/-- JS Map.has. -/
def mapHas (m : List (String × AgentSession)) (k : String) : Bool :=
  m.any (fun p => p.1 = k)

/-- JS Map.set: overwrite in place when the key exists, else append. -/
def mapSet (m : List (String × AgentSession)) (k : String) (v : AgentSession) :
    List (String × AgentSession) :=
  if mapHas m k then m.map (fun p => if p.1 = k then (k, v) else p)
  else m ++ [(k, v)]

/-- JS Map.get. -/
def mapGet (m : List (String × AgentSession)) (k : String) : Option AgentSession :=
  (m.find? (fun p => p.1 = k)).map (fun p => p.2)

/-- ai.chats.create: allocate a fresh session identity. -/
def chatsCreate (s : SwarmState) : Nat × SwarmState :=
  (s.nextChatId, ⟨s.agentSwarm, s.nextChatId + 1⟩)

/-- The per-file body of the initializeAgentSwarm loop: create a fresh chat,
brief it, and register it under the file name when the briefing succeeds
(agentSwarm.set overwrites any existing entry); on briefing failure the
expert is skipped, leaving only the consumed session id. -/
def briefDocumentExpert (briefOk : String → Bool) (st : SwarmState) (file : String) :
    SwarmState :=
  let created := chatsCreate st
  if briefOk file then
    ⟨mapSet created.2.agentSwarm file ⟨file, created.1, true⟩, created.2.nextChatId⟩
  else created.2

/-- One standing-expert block of initializeAgentSwarm: when the name is
absent, create a fresh chat session and register it; when present, do
nothing (the guard `if (!agentSwarm.has(name))`). -/
def ensureStandingExpert (name : String) (s : SwarmState) : SwarmState :=
  if mapHas s.agentSwarm name then s
  else
    let created := chatsCreate s
    ⟨mapSet created.2.agentSwarm name ⟨name, created.1, true⟩, created.2.nextChatId⟩

/-- initializeAgentSwarm: create the two standing experts only when absent,
then for every file create a fresh chat, brief it, and register it under the
file name when the briefing succeeds, overwriting any existing entry. -/
def initAgentSwarm (briefOk : String → Bool) (files : List String) (s : SwarmState) :
    SwarmState :=
  let s1 := ensureStandingExpert "Web Expert" s
  let s2 := ensureStandingExpert "URL Expert" s1
  files.foldl (briefDocumentExpert briefOk) s2

/-- getSwarmStatus: the registered expert names in insertion order. -/
def getSwarmStatus (s : SwarmState) : List String :=
  s.agentSwarm.map (fun p => p.1)

/-! ## Plans and tasks (types.ts) -/

/-- Plan classification tag. -/
inductive PlanType
  | SIMPLE_FACT
  | DEEP_ANALYSIS
deriving DecidableEq, Repr

/-- One task of a plan step. -/
structure OrchestratorTask where
  file_name : String
  specific_question : String
  rationale : String
deriving DecidableEq, Repr

/-- One plan step. -/
structure OrchestratorStep where
  step_title : String
  description : String
  tasks : List OrchestratorTask
deriving DecidableEq, Repr

/-- A research plan. -/
structure OrchestratorPlan where
  plan_type : PlanType
  thought_process : String
  strategy_explanation : String
  steps : List OrchestratorStep
deriving DecidableEq, Repr

/-- getAllTasks (SourceSidebar.tsx line 192): flatten the steps. -/
def getAllTasks (plan : OrchestratorPlan) : List OrchestratorTask :=
  plan.steps.flatMap (fun step => step.tasks)

/-- One executed-task record, as accumulated across rounds. -/
structure TaskResult where
  file : String
  question : String
  response : String
deriving DecidableEq, Repr

/-! ## Executor (geminiService.ts lines 1018-1048)

executePlanTasks flattens the plan, returns [] immediately when there are no
tasks, and otherwise dispatches every task through Promise.all.  Each task
closure checks the abort token, looks the expert up in the swarm, and wraps
the session send in the retry envelope; the net outcome of that wrapped call
is the per-task oracle input here.  A USER_ABORTED throw from any task
rejects the whole Promise.all, modelled by Except. -/

/-- Net outcome of the retry-wrapped Gateway send for a single task. -/
inductive TaskOutcome
  | success (text : Option String)
  | gatewayFailure
  | aborted
deriving DecidableEq, Repr

/-- The source expression `text || "No response."`. -/
def orNoResponse : Option String → String
  | none => "No response."
  | some t => if t = "" then "No response." else t

/-- One task closure of executePlanTasks: abort check, registry lookup with
the synthetic not-assigned result, then the wrapped send with the synthetic
retrieval-failure result, rethrowing only USER_ABORTED. -/
def runTask (aborted : Bool) (swarm : List String)
    (outcome : OrchestratorTask → TaskOutcome) (task : OrchestratorTask) :
    Except Unit TaskResult :=
  if aborted then Except.error ()
  else if swarm.contains task.file_name then
    match outcome task with
    | TaskOutcome.success txt =>
      Except.ok ⟨task.file_name, task.specific_question, orNoResponse txt⟩
    | TaskOutcome.gatewayFailure =>
      Except.ok ⟨task.file_name, task.specific_question, "Error: Retrieval failed."⟩
    | TaskOutcome.aborted => Except.error ()
  else Except.ok ⟨task.file_name, task.specific_question, "Error: Expert not assigned."⟩

/-- Promise.all over the task closures: results are collected in task
declaration order, and the whole batch rejects when any task rejects. -/
def collectTaskResults (aborted : Bool) (swarm : List String)
    (outcome : OrchestratorTask → TaskOutcome) :
    List OrchestratorTask → Except Unit (List TaskResult)
  | [] => Except.ok []
  | t :: ts =>
    match runTask aborted swarm outcome t with
    | Except.error e => Except.error e
    | Except.ok r =>
      match collectTaskResults aborted swarm outcome ts with
      | Except.error e => Except.error e
      | Except.ok rs => Except.ok (r :: rs)

/-- executePlanTasks: empty plans return [] at once; otherwise all tasks run
and the batch rejects iff some task throws the abort. -/
def executePlanTasks (aborted : Bool) (swarm : List String)
    (outcome : OrchestratorTask → TaskOutcome) (plan : OrchestratorPlan) :
    Except Unit (List TaskResult) :=
  let allTasks := getAllTasks plan
  if allTasks.length = 0 then Except.ok []
  else collectTaskResults aborted swarm outcome allTasks

/-- The expert sessions that executePlanTasks actually sends a message to:
only tasks whose expert is registered reach session.chat.sendMessage. -/
def dispatchedExperts (aborted : Bool) (swarm : List String) (plan : OrchestratorPlan) :
    List String :=
  if aborted then []
  else ((getAllTasks plan).filter (fun t => swarm.contains t.file_name)).map
    (fun t => t.file_name)

/-- The per-task failure policy as the specification states it: unknown
expert gives the synthetic not-assigned answer, a Gateway failure after
retries gives the synthetic retrieval-failure answer, otherwise the response
text (or the no-response placeholder) is returned.  Stated from the spec to
be compared with runTask/executePlanTasks. -/
def answerFor (swarm : List String) (outcome : OrchestratorTask → TaskOutcome)
    (t : OrchestratorTask) : String :=
  if swarm.contains t.file_name then
    match outcome t with
    | TaskOutcome.success txt => orNoResponse txt
    | TaskOutcome.gatewayFailure => "Error: Retrieval failed."
    | TaskOutcome.aborted => ""
  else "Error: Expert not assigned."

/-! ## Advisor scorecard and plan refiner (geminiService.ts lines 854-1013) -/

/-- The six advisor rubric dimensions. -/
structure Scorecard where
  goal_alignment : Int
  insight_quality : Int
  accuracy_traceability : Int
  robustness : Int
  simplicity : Int
  feasibility : Int
deriving DecidableEq, Repr

/-- The list Object.values(scorecard) in field order. -/
def scorecardValues (s : Scorecard) : List Int :=
  [s.goal_alignment, s.insight_quality, s.accuracy_traceability, s.robustness,
   s.simplicity, s.feasibility]

/-- Math.min over the six scorecard values. -/
def minScore (s : Scorecard) : Int :=
  min s.goal_alignment (min s.insight_quality (min s.accuracy_traceability
    (min s.robustness (min s.simplicity s.feasibility))))

/-- The advisor review: scorecard, risks, evidence (never a verdict). -/
structure AdvisorReview where
  scorecard : Scorecard
  key_risks : List String
  evidence_references : List String
deriving DecidableEq, Repr

/-- Observable outcome of refinePlanWithAdvisor: the returned plan and how
many advisor and planner Gateway calls the function issued. -/
structure RefineOutcome where
  plan : OrchestratorPlan
  advisorCalls : Nat
  plannerCalls : Nat
deriving DecidableEq, Repr

/-- refinePlanWithAdvisor: one advisor call always; when minScore >= 4 and no
risks were flagged the initial plan is returned with no further Gateway call,
otherwise exactly one more planner-style call produces the final plan.  The
advisor feedback and the planner response are Gateway inputs, hence
parameters. -/
def refinePlanWithAdvisor (advisorFeedback : AdvisorReview)
    (plannerResult : OrchestratorPlan) (initialPlan : OrchestratorPlan) : RefineOutcome :=
  let hasCriticalRisks := advisorFeedback.key_risks.length > 0
  if minScore advisorFeedback.scorecard ≥ 4 ∧ ¬hasCriticalRisks then
    ⟨initialPlan, 1, 0⟩
  else ⟨plannerResult, 1, 1⟩

/-! ## Review verdicts, debate loop, research loop, driver
(SourceSidebar.tsx lines 1233-1427) -/

/-- The arbitration verdict enum. -/
inductive Verdict
  | APPROVED
  | REJECTED
  | INCREMENTAL
  | DEBATE
  | NEEDS_CLARIFICATION
deriving DecidableEq, Repr

/-- The consultant (output reviewer) opinion. -/
structure OutputQualityVerdict where
  does_answer_query : Bool
  has_hallucinations : Bool
  consultant_opinion : String
deriving DecidableEq, Repr

/-- The lead arbitration record. -/
structure LeadArbitration where
  verdict : Verdict
  reasoning : String
  remediation_plan : Option OrchestratorPlan
  clarification_message : Option String
deriving DecidableEq, Repr

/-- The research evaluation status enum. -/
inductive EvalStatus
  | CONTINUE_RESEARCH
  | FINALIZE
deriving DecidableEq, Repr

/-- The research evaluation record. -/
structure ResearchEvaluation where
  status : EvalStatus
  gap_analysis : String
  new_plan : Option OrchestratorPlan
deriving DecidableEq, Repr

/-- MAX_DEBATE_ROUNDS (SourceSidebar.tsx line 1285). -/
def MAX_DEBATE_ROUNDS : Nat := 2

/-- MAX_RETRYS (SourceSidebar.tsx line 1236). -/
def MAX_RETRYS : Nat := 4

/-- MAX_RESEARCH_ROUNDS (SourceSidebar.tsx line 1239). -/
def MAX_RESEARCH_ROUNDS : Nat := 4

/-- The forced arbitration synthesized when the debate budget is exhausted
(SourceSidebar.tsx lines 1315-1318). -/
def forcedDebateArbitration : LeadArbitration :=
  ⟨Verdict.APPROVED,
   "[SYSTEM] Debate limit reached. Overriding Consultant to proceed with the current report to prevent infinite argument.",
   none, none⟩

/-- Result of the debate loop: the arbitration the driver proceeds with, and
how many arbitrator and reviewer Gateway round-trips the loop issued. -/
structure DebateResult where
  arbitration : LeadArbitration
  arbCalls : Nat
  reviewCalls : Nat
deriving DecidableEq, Repr

/-- The debate while-loop.  The source guards re-entry by
`debateRound < MAX_DEBATE_ROUNDS` and increments debateRound; remaining =
MAX_DEBATE_ROUNDS - debateRound is the structural argument (so remaining = 0
is exactly the exhausted-budget branch that forces the approval).  arb is the
arbitrator oracle applied to the current consultant opinion and debate
history; review is the reviewer oracle applied to the debate history. -/
def debateLoopGo (arb : OutputQualityVerdict → List String → LeadArbitration)
    (review : List String → OutputQualityVerdict) :
    OutputQualityVerdict → List String → Nat → DebateResult
  | opinion, debateHistory, 0 =>
    let arbitration := arb opinion debateHistory
    if arbitration.verdict = Verdict.DEBATE then ⟨forcedDebateArbitration, 1, 0⟩
    else ⟨arbitration, 1, 0⟩
  | opinion, debateHistory, remaining + 1 =>
    let arbitration := arb opinion debateHistory
    if arbitration.verdict = Verdict.DEBATE then
      let dh := debateHistory ++ [arbitration.reasoning]
      let newOpinion := review dh
      let r := debateLoopGo arb review newOpinion dh remaining
      ⟨r.arbitration, r.arbCalls + 1, r.reviewCalls + 1⟩
    else ⟨arbitration, 1, 0⟩

/-- The debate loop as entered by the driver: debateRound = 0, empty debate
history, first consultant opinion already in hand. -/
def debateLoop (arb : OutputQualityVerdict → List String → LeadArbitration)
    (review : List String → OutputQualityVerdict) (opinion : OutputQualityVerdict) :
    DebateResult :=
  debateLoopGo arb review opinion [] MAX_DEBATE_ROUNDS

/-- Result of one entry into the research inner loop. -/
structure ResearchPhaseResult where
  currentPlan : OrchestratorPlan
  accumulatedResults : List TaskResult
  researchRound : Nat
  execRounds : Nat
  evalCalls : Nat
  accTrace : List (List TaskResult)
deriving Repr

/-- The research while-loop body.  The source loop runs while
`researchRound <= MAX_RESEARCH_ROUNDS`; remaining =
MAX_RESEARCH_ROUNDS + 1 - researchRound is the structural argument (0 iff
the guard fails), and researchRound stays explicit because the body reads
it.  Each pass executes the current plan (exec oracle, the awaited value of
executePlanTasks), appends to the accumulated results, and on deep-analysis
plans below the round cap consults the research evaluator (evalR oracle);
a CONTINUE_RESEARCH status carrying a new plan swaps the plan and loops.
accTrace records the accumulated list after each append. -/
def researchPhaseGo (exec : OrchestratorPlan → Nat → List TaskResult)
    (evalR : OrchestratorPlan → List TaskResult → Nat → ResearchEvaluation) :
    OrchestratorPlan → List TaskResult → Nat → Nat → ResearchPhaseResult
  | plan, acc, round, 0 => ⟨plan, acc, round, 0, 0, []⟩
  | plan, acc, round, remaining + 1 =>
    let results := exec plan round
    let acc2 := acc ++ results
    if plan.plan_type = PlanType.DEEP_ANALYSIS ∧ round < MAX_RESEARCH_ROUNDS then
      let evaluation := evalR plan acc2 round
      if evaluation.status = EvalStatus.CONTINUE_RESEARCH ∧ evaluation.new_plan.isSome then
        let r := researchPhaseGo exec evalR (evaluation.new_plan.getD plan) acc2
          (round + 1) remaining
        ⟨r.currentPlan, r.accumulatedResults, r.researchRound, r.execRounds + 1,
          r.evalCalls + 1, acc2 :: r.accTrace⟩
      else ⟨plan, acc2, round, 1, 1, [acc2]⟩
    else ⟨plan, acc2, round, 1, 0, [acc2]⟩

/-- The research inner loop entered with the driver state. -/
def researchPhase (exec : OrchestratorPlan → Nat → List TaskResult)
    (evalR : OrchestratorPlan → List TaskResult → Nat → ResearchEvaluation)
    (plan : OrchestratorPlan) (acc : List TaskResult) (round : Nat) :
    ResearchPhaseResult :=
  researchPhaseGo exec evalR plan acc round (MAX_RESEARCH_ROUNDS + 1 - round)

/-! ## The quality-control driver (handleExecuteWithQualityControl)

One iteration of the outer `while (true)` loop: research phase, synthesis,
consultant review, debate loop, then the INCREMENTAL / REJECTED /
NEEDS_CLARIFICATION / final-report branching.  All Gateway responses are
oracle fields; synth returns (thinking, content) and only content feeds
control flow.  Each iteration either finishes with a user-facing message or
continues with an updated state; every continue increments attempt under a
guard attempt < MAX_RETRYS, which bounds the outer loop, modelled by fuel
below together with a sufficiency proof. -/

/-- The Gateway-response oracles of one pipeline run. -/
structure Oracles where
  exec : OrchestratorPlan → Nat → List TaskResult
  evalR : OrchestratorPlan → List TaskResult → Nat → ResearchEvaluation
  synth : OrchestratorPlan → List TaskResult → String × String
  review : String → List String → OutputQualityVerdict
  arb : String → OutputQualityVerdict → List String → List TaskResult → LeadArbitration
  refine : OrchestratorPlan → OrchestratorPlan
  execIncr : OrchestratorPlan → Nat → List TaskResult

/-- The mutable locals of handleExecuteWithQualityControl. -/
structure QCState where
  currentPlan : OrchestratorPlan
  attempt : Nat
  accumulatedResults : List TaskResult
  researchRound : Nat
deriving DecidableEq, Repr

/-- The user-facing end of a pipeline run. -/
inductive FinalMsg
  | report (text : String)
  | clarification (msg : String)
deriving DecidableEq, Repr

/-- Which continue branch an iteration took. -/
inductive BranchTag
  | incrementalContinue
  | rejectedRestart
deriving DecidableEq, Repr

/-- The fallback clarification text (SourceSidebar.tsx lines 1364 and 1406). -/
def defaultClarificationText : String :=
  "I need more information or specific expert agents to complete this request."

/-- Outcome of one outer-loop iteration: continue with a new state or finish.
accTrace lists every value taken by accumulatedResults at an append or reset
event during the iteration; the arbitration that decided the branch and the
branch tag are carried for the statements about the REJECTED branch. -/
inductive StepResult
  | next (s : QCState) (accTrace : List (List TaskResult)) (arbitration : LeadArbitration)
      (tag : BranchTag)
  | done (msg : FinalMsg) (s : QCState) (accTrace : List (List TaskResult))
      (arbitration : LeadArbitration)
deriving Repr

/-- The INCREMENTAL branch of the driver (SourceSidebar.tsx lines
1328-1385): execute the remediation plan when it has tasks, append to the
accumulated results, re-synthesize from the full set, re-review, increment
attempt, re-arbitrate once, and finish on APPROVED / NEEDS_CLARIFICATION /
exhausted budget, otherwise continue the outer loop.  trace is the snapshot
trace accumulated so far this iteration. -/
def incrementalBranch (o : Oracles) (attempt : Nat) (currentPlan : OrchestratorPlan)
    (acc : List TaskResult) (researchRound : Nat) (trace : List (List TaskResult))
    (arbitration : LeadArbitration) : StepResult :=
  let incrementalPlan := arbitration.remediation_plan.getD currentPlan
  let hasTasks := (getAllTasks incrementalPlan).length > 0
  let acc2 := if hasTasks then acc ++ o.execIncr incrementalPlan attempt else acc
  let tr := if hasTasks then trace ++ [acc2] else trace
  let newContent := (o.synth currentPlan acc2).2
  let opinion2 := o.review newContent []
  let attempt2 := attempt + 1
  let arb2 := o.arb newContent opinion2 [] acc2
  if arb2.verdict = Verdict.APPROVED ∨ arb2.verdict = Verdict.NEEDS_CLARIFICATION ∨
      attempt2 ≥ MAX_RETRYS then
    if arb2.verdict = Verdict.NEEDS_CLARIFICATION then
      StepResult.done
        (FinalMsg.clarification (arb2.clarification_message.getD defaultClarificationText))
        ⟨currentPlan, attempt2, acc2, researchRound⟩ tr arb2
    else
      StepResult.done (FinalMsg.report newContent)
        ⟨currentPlan, attempt2, acc2, researchRound⟩ tr arb2
  else
    StepResult.next ⟨currentPlan, attempt2, acc2, researchRound⟩ tr arb2
      BranchTag.incrementalContinue

/-- The REJECTED branch of the driver (SourceSidebar.tsx lines 1388-1403):
take the remediation plan, run it through the advisor/refiner gate when it
has tasks, keep the accumulated results untouched, reset researchRound to 0,
increment attempt, and continue the outer loop. -/
def rejectedBranch (o : Oracles) (attempt : Nat) (currentPlan : OrchestratorPlan)
    (acc : List TaskResult) (trace : List (List TaskResult))
    (arbitration : LeadArbitration) : StepResult :=
  let newPlan0 := arbitration.remediation_plan.getD currentPlan
  let newPlan := if (getAllTasks newPlan0).length > 0 then o.refine newPlan0 else newPlan0
  StepResult.next ⟨newPlan, attempt + 1, acc, 0⟩ (trace ++ [acc]) arbitration
    BranchTag.rejectedRestart

/-- One iteration of the outer while (true) loop of
handleExecuteWithQualityControl (SourceSidebar.tsx lines 1243-1425). -/
def driverStep (o : Oracles) (s : QCState) : StepResult :=
  let rp := researchPhase o.exec o.evalR s.currentPlan s.accumulatedResults s.researchRound
  let content := (o.synth rp.currentPlan rp.accumulatedResults).2
  let consultantOpinion := o.review content []
  let d := debateLoop (fun op dh => o.arb content op dh rp.accumulatedResults)
    (o.review content) consultantOpinion
  let arbitration := d.arbitration
  if arbitration.verdict = Verdict.INCREMENTAL ∧ s.attempt < MAX_RETRYS ∧
      arbitration.remediation_plan.isSome then
    incrementalBranch o s.attempt rp.currentPlan rp.accumulatedResults rp.researchRound
      rp.accTrace arbitration
  else if arbitration.verdict = Verdict.REJECTED ∧ s.attempt < MAX_RETRYS ∧
      arbitration.remediation_plan.isSome then
    rejectedBranch o s.attempt rp.currentPlan rp.accumulatedResults rp.accTrace arbitration
  else if arbitration.verdict = Verdict.NEEDS_CLARIFICATION then
    StepResult.done
      (FinalMsg.clarification
        (arbitration.clarification_message.getD defaultClarificationText))
      ⟨rp.currentPlan, s.attempt, rp.accumulatedResults, rp.researchRound⟩ rp.accTrace
      arbitration
  else
    StepResult.done (FinalMsg.report content)
      ⟨rp.currentPlan, s.attempt, rp.accumulatedResults, rp.researchRound⟩ rp.accTrace
      arbitration

/-- The outer while (true) loop, with fuel standing in for the termination
measure (every continue requires attempt < MAX_RETRYS and increments it, so
MAX_RETRYS + 2 fuel always suffices; proven below). -/
def driverLoopFuel (o : Oracles) : QCState → Nat → Option (FinalMsg × QCState × List (List TaskResult))
  | _, 0 => none
  | s, fuel + 1 =>
    match driverStep o s with
    | StepResult.next s2 tr _ _ =>
      (driverLoopFuel o s2 fuel).map (fun r => (r.1, r.2.1, tr ++ r.2.2))
    | StepResult.done m s2 tr _ => some (m, s2, tr)

/-- handleExecuteWithQualityControl: the driver entered with the initial
plan, attempt = 0, no accumulated results, researchRound = 0. -/
def handleExecuteWithQualityControl (o : Oracles) (initialPlan : OrchestratorPlan) :
    Option (FinalMsg × QCState × List (List TaskResult)) :=
  driverLoopFuel o ⟨initialPlan, 0, [], 0⟩ (MAX_RETRYS + 2)

/-- The append-extension relation on accumulated result lists: the second is
the first plus some appended suffix. -/
def accExt (a b : List TaskResult) : Prop := ∃ t, b = a ++ t

/-- The per-iteration soundness predicate of the driver: the iteration only
appends to the accumulated results (its snapshot trace is an append chain
ending in the outgoing accumulated list), every continue increments attempt
under the retry cap, and the rejected-restart branch resets the research
round to 0 while preserving the accumulated results. -/
def stepOk (s : QCState) : StepResult → Prop
  | StepResult.next s2 tr arb tag =>
      List.Chain' accExt (s.accumulatedResults :: tr) ∧
      s2.accumulatedResults = tr.getLastD s.accumulatedResults ∧
      s2.attempt = s.attempt + 1 ∧ s.attempt < MAX_RETRYS ∧
      (tag = BranchTag.rejectedRestart →
        arb.verdict = Verdict.REJECTED ∧ s2.researchRound = 0 ∧
        accExt s.accumulatedResults s2.accumulatedResults)
  | StepResult.done _ s2 tr _ =>
      List.Chain' accExt (s.accumulatedResults :: tr) ∧
      s2.accumulatedResults = tr.getLastD s.accumulatedResults

/-! ## Concrete instances used by the witness theorems -/

/-- A simple-fact plan with no steps. -/
def wSimplePlan : OrchestratorPlan := ⟨PlanType.SIMPLE_FACT, "", "", []⟩

/-- A deep-analysis plan with no steps. -/
def wDeepPlan : OrchestratorPlan := ⟨PlanType.DEEP_ANALYSIS, "", "", []⟩

/-- An arbitration that rejects with a remediation plan. -/
def wArbReject : LeadArbitration :=
  ⟨Verdict.REJECTED, "structural failure", some wSimplePlan, none⟩

/-- Oracles whose arbitrator always rejects with a remediation plan. -/
def wOracles : Oracles :=
  ⟨fun _ _ => [], fun _ _ _ => ⟨EvalStatus.FINALIZE, "done", none⟩,
   fun _ _ => ("", "report"), fun _ _ => ⟨true, false, "ok"⟩,
   fun _ _ _ _ => wArbReject, fun p => p, fun _ _ => []⟩

/-- A task addressed to a registered expert that answers normally. -/
def wTaskKnown : OrchestratorTask := ⟨"Doc_A.pdf", "q1", "r"⟩

/-- A task addressed to an expert missing from the registry. -/
def wTaskUnknown : OrchestratorTask := ⟨"Doc_Z.pdf", "q2", "r"⟩

/-- A task whose Gateway call fails after retries. -/
def wTaskFailing : OrchestratorTask := ⟨"Doc_A.pdf", "q3", "r"⟩

/-- A plan containing the three tasks above in one step. -/
def wExecPlan : OrchestratorPlan :=
  ⟨PlanType.DEEP_ANALYSIS, "", "", [⟨"step", "", [wTaskKnown, wTaskUnknown, wTaskFailing]⟩]⟩

/-- Per-task outcomes: q3 fails at the Gateway, everything else answers. -/
def wOutcome : OrchestratorTask → TaskOutcome := fun t =>
  if t.specific_question = "q3" then TaskOutcome.gatewayFailure
  else TaskOutcome.success (some "answer text")

/-- C7: refinePlanWithAdvisor always runs the Advisor exactly once and never
re-runs it afterwards; when every scorecard dimension is at least 4 and the
risk list is empty it returns the input plan unchanged with no further
Gateway call, and otherwise it issues exactly one additional Planner-style
Gateway call and returns that plan. -/
theorem c7_refiner_gate (fb : AdvisorReview) (plannerResult initialPlan : OrchestratorPlan) :
    (refinePlanWithAdvisor fb plannerResult initialPlan).advisorCalls = 1 ∧
    ((∀ v ∈ scorecardValues fb.scorecard, 4 ≤ v) → fb.key_risks = [] →
      refinePlanWithAdvisor fb plannerResult initialPlan = ⟨initialPlan, 1, 0⟩) ∧
    (((∃ v ∈ scorecardValues fb.scorecard, v < 4) ∨ fb.key_risks ≠ []) →
      refinePlanWithAdvisor fb plannerResult initialPlan = ⟨plannerResult, 1, 1⟩) := by
  refine ⟨?_, ?_, ?_⟩
  · simp only [refinePlanWithAdvisor]
    split <;> rfl
  · intro hall hrisk
    have h1 := hall fb.scorecard.goal_alignment (by simp [scorecardValues])
    have h2 := hall fb.scorecard.insight_quality (by simp [scorecardValues])
    have h3 := hall fb.scorecard.accuracy_traceability (by simp [scorecardValues])
    have h4 := hall fb.scorecard.robustness (by simp [scorecardValues])
    have h5 := hall fb.scorecard.simplicity (by simp [scorecardValues])
    have h6 := hall fb.scorecard.feasibility (by simp [scorecardValues])
    have hm : minScore fb.scorecard ≥ 4 := by unfold minScore; omega
    simp [refinePlanWithAdvisor, hm, hrisk]
  · intro h
    have hneg : ¬(4 ≤ minScore fb.scorecard ∧ fb.key_risks = []) := by
      rintro ⟨hmin, hris⟩
      rcases h with ⟨v, hv, hlt⟩ | hne
      · unfold minScore at hmin
        simp only [scorecardValues, List.mem_cons, List.mem_singleton] at hv
        rcases hv with rfl | rfl | rfl | rfl | rfl | hv
        · omega
        · omega
        · omega
        · omega
        · omega
        · simp at hv; subst hv; omega
      · exact hne hris
    simp [refinePlanWithAdvisor, hneg]

/-- C10: a plan whose steps contain zero tasks makes executePlanTasks return
the empty result list immediately, with no message sent to any expert session
and hence no Gateway call. -/
theorem c10_empty_plan_no_dispatch (aborted : Bool) (swarm : List String)
    (outcome : OrchestratorTask → TaskOutcome) (plan : OrchestratorPlan)
    (h : getAllTasks plan = []) :
    executePlanTasks aborted swarm outcome plan = Except.ok [] ∧
    dispatchedExperts aborted swarm plan = [] := by
  unfold executePlanTasks dispatchedExperts
  cases aborted <;> simp [h]

/-- C1: when the Arbitrator answers DEBATE on every call, the debate loop
performs exactly 1 + 2 arbitrator calls and 2 additional reviewer
round-trips, then replaces the verdict with the forced approved arbitration
whose reasoning is annotated with the [SYSTEM] override marker; the loop is
a total function, so it always terminates. -/
theorem c1_debate_bound (arb : OutputQualityVerdict → List String → LeadArbitration)
    (review : List String → OutputQualityVerdict) (opinion : OutputQualityVerdict)
    (hAll : ∀ op dh, (arb op dh).verdict = Verdict.DEBATE) :
    debateLoop arb review opinion = ⟨forcedDebateArbitration, 3, 2⟩ ∧
    forcedDebateArbitration.verdict = Verdict.APPROVED ∧
    "[SYSTEM]".data.isPrefixOf forcedDebateArbitration.reasoning.data = true := by
  refine ⟨?_, rfl, by decide⟩
  unfold debateLoop MAX_DEBATE_ROUNDS
  simp [debateLoopGo, hAll]

/-- C2 helper: the executed-round count never exceeds the remaining budget. -/
theorem researchPhaseGo_execRounds_le (exec : OrchestratorPlan → Nat → List TaskResult)
    (evalR : OrchestratorPlan → List TaskResult → Nat → ResearchEvaluation) :
    ∀ remaining plan acc round,
      (researchPhaseGo exec evalR plan acc round remaining).execRounds ≤ remaining := by
  intro remaining
  induction remaining with
  | zero => intro plan acc round; simp [researchPhaseGo]
  | succ n ih =>
    intro plan acc round
    simp only [researchPhaseGo]
    split
    · split
      · have := ih ((evalR plan (acc ++ exec plan round) round).new_plan.getD plan)
          (acc ++ exec plan round) (round + 1)
        simp only []
        omega
      · simp
    · simp

/-- C2: the research phase entered at round 0 executes at most 5 rounds
whatever the Research Evaluator answers; a SIMPLE_FACT plan executes exactly
once and never invokes the evaluator; and with an evaluator that always
answers CONTINUE_RESEARCH with a deep-analysis new plan, exactly 5 execution
rounds and 4 evaluator calls happen before the forced exit to synthesis. -/
theorem c2_research_loop_bound (exec : OrchestratorPlan → Nat → List TaskResult)
    (evalR : OrchestratorPlan → List TaskResult → Nat → ResearchEvaluation)
    (plan : OrchestratorPlan) (acc : List TaskResult) :
    (researchPhase exec evalR plan acc 0).execRounds ≤ 5 ∧
    (plan.plan_type = PlanType.SIMPLE_FACT →
      (researchPhase exec evalR plan acc 0).execRounds = 1 ∧
      (researchPhase exec evalR plan acc 0).evalCalls = 0) ∧
    (plan.plan_type = PlanType.DEEP_ANALYSIS →
      (∀ p a r, (evalR p a r).status = EvalStatus.CONTINUE_RESEARCH) →
      (∀ p a r, (evalR p a r).new_plan.isSome = true) →
      (∀ p a r, ((evalR p a r).new_plan.getD p).plan_type = PlanType.DEEP_ANALYSIS) →
      (researchPhase exec evalR plan acc 0).execRounds = 5 ∧
      (researchPhase exec evalR plan acc 0).evalCalls = 4) := by
  refine ⟨?_, ?_, ?_⟩
  · exact researchPhaseGo_execRounds_le exec evalR 5 plan acc 0
  · intro h
    unfold researchPhase
    simp [researchPhaseGo, h, MAX_RESEARCH_ROUNDS]
  · intro hd hs hn hnd
    unfold researchPhase
    simp [researchPhaseGo, hd, hs, hn, hnd, MAX_RESEARCH_ROUNDS]

/-- Helper: when no dispatched task aborts, the batch resolves to the
per-task policy answers in declaration order. -/
theorem collectTaskResults_ok (swarm : List String)
    (outcome : OrchestratorTask → TaskOutcome) :
    ∀ l : List OrchestratorTask,
      (∀ t ∈ l, swarm.contains t.file_name = true → outcome t ≠ TaskOutcome.aborted) →
      collectTaskResults false swarm outcome l =
        Except.ok (l.map (fun t => ⟨t.file_name, t.specific_question, answerFor swarm outcome t⟩)) := by
  intro l
  induction l with
  | nil => intro _; rfl
  | cons a l ih =>
    intro h
    have ha : runTask false swarm outcome a =
        Except.ok ⟨a.file_name, a.specific_question, answerFor swarm outcome a⟩ := by
      unfold runTask answerFor
      by_cases hc : swarm.contains a.file_name = true
      · have hna := h a (by simp) hc
        simp only [hc, if_false, if_true, Bool.false_eq_true]
        cases ho : outcome a with
        | success txt => simp [hc]
        | gatewayFailure => simp [hc]
        | aborted => exact absurd ho hna
      · simp at hc
        simp [hc]
    rw [collectTaskResults, ha, ih (fun t ht hc => h t (by simp [ht]) hc)]
    simp

/-- Helper: a dispatched task that aborts rejects the whole batch. -/
theorem collectTaskResults_aborts (swarm : List String)
    (outcome : OrchestratorTask → TaskOutcome) :
    ∀ l : List OrchestratorTask, ∀ t ∈ l,
      swarm.contains t.file_name = true → outcome t = TaskOutcome.aborted →
      collectTaskResults false swarm outcome l = Except.error () := by
  intro l
  induction l with
  | nil => intro t ht; simp at ht
  | cons a l ih =>
    intro t ht hc ho
    rcases List.mem_cons.mp ht with rfl | hmem
    · have ha : runTask false swarm outcome t = Except.error () := by
        have hm : t.file_name ∈ swarm := by simpa using hc
        simp [runTask, hm, ho]
      rw [collectTaskResults, ha]
    · rw [collectTaskResults]
      cases hr : runTask false swarm outcome a with
      | error e => rfl
      | ok r => rw [ih t hmem hc ho]
/-- C5: per-task failure policy of the Executor.  When no dispatched task
aborts, the batch resolves with one result per task in declaration order:
an unregistered expert yields the synthetic "Error: Expert not assigned."
answer without throwing, and a Gateway failure after retries yields
"Error: Retrieval failed."; a user abort thrown by any dispatched task, or a
cancellation observed at dispatch, rejects the whole batch instead of
returning an incomplete result list. -/
theorem c5_executor_failure_policy (swarm : List String)
    (outcome : OrchestratorTask → TaskOutcome) (plan : OrchestratorPlan) :
    ((∀ t ∈ getAllTasks plan, swarm.contains t.file_name = true →
        outcome t ≠ TaskOutcome.aborted) →
      executePlanTasks false swarm outcome plan =
        Except.ok ((getAllTasks plan).map
          (fun t => ⟨t.file_name, t.specific_question, answerFor swarm outcome t⟩))) ∧
    ((∃ t ∈ getAllTasks plan, swarm.contains t.file_name = true ∧
        outcome t = TaskOutcome.aborted) →
      executePlanTasks false swarm outcome plan = Except.error ()) ∧
    (getAllTasks plan ≠ [] →
      executePlanTasks true swarm outcome plan = Except.error ()) := by
  refine ⟨?_, ?_, ?_⟩
  · intro h
    unfold executePlanTasks
    by_cases he : (getAllTasks plan).length = 0
    · simp at he
      simp [he]
    · simp only [he, if_false]
      exact collectTaskResults_ok swarm outcome (getAllTasks plan) h
  · rintro ⟨t, ht, hc, ho⟩
    unfold executePlanTasks
    have hne : ¬((getAllTasks plan).length = 0) := by
      simp only [List.length_eq_zero]
      intro hnil
      rw [hnil] at ht
      simp at ht
    simp only [hne, if_false]
    exact collectTaskResults_aborts swarm outcome (getAllTasks plan) t ht hc ho
  · intro hne
    unfold executePlanTasks
    have hl : ¬((getAllTasks plan).length = 0) := by simpa using hne
    simp only [hl, if_false]
    cases hts : getAllTasks plan with
    | nil => exact absurd hts hne
    | cons a l => simp [collectTaskResults, runTask]
/-- Helper: peeling the first element off a shifted range map. -/
theorem rangeMapShift (f : Nat → Nat) (m i : Nat) :
    (List.range (m + 1)).map (fun k => f (i + k)) =
      f i :: (List.range m).map (fun k => f (i + 1 + k)) := by
  rw [List.range_succ_eq_map, List.map_cons, List.map_map]
  refine congrArg₂ _ (by simp) ?_
  refine List.map_congr_left ?_
  intro k _
  simp only [Function.comp_apply]
  congr 1
  omega

/-- C4 helper: with a rate-limited error on every attempt and no abort, the
remaining iterations all fail, retrying with the documented backoff until the
final attempt rethrows the error. -/
theorem retryGo_rateLimited (e : JsError) (jitter : Nat → Nat) (retries baseDelay : Nat)
    (he : (isRateLimit e || isOverloaded e) = true)
    (hm : e.message ≠ "USER_ABORTED") (hn : e.name ≠ "AbortError") :
    ∀ remaining i, i + remaining = retries → 1 ≤ remaining →
      callGeminiWithRetryGo (α := Unit) (fun _ => AttemptOutcome.err e) (fun _ => false)
          (fun _ => false) jitter retries baseDelay i remaining =
        ⟨RetryOutcome.thrown e, remaining,
         (List.range (remaining - 1)).map (fun k => baseDelay * 2 ^ (i + k) + jitter (i + k))⟩ := by
  have hmb : (e.message == "USER_ABORTED") = false := by
    simpa using hm
  have hnb : (e.name == "AbortError") = false := by
    simpa using hn
  intro remaining
  induction remaining with
  | zero => intro i h h1; omega
  | succ n ih =>
    intro i h _
    rcases Nat.eq_zero_or_pos n with rfl | hpos
    · have hguard : ¬(i < retries - 1) := by omega
      simp [callGeminiWithRetryGo, hmb, hnb, he, hguard]
    · obtain ⟨m, rfl⟩ : ∃ m, n = m + 1 := ⟨n - 1, by omega⟩
      have hguard : i < retries - 1 := by omega
      have hrec := ih (i + 1) (by omega) (by omega)
      rw [callGeminiWithRetryGo]
      simp only [Bool.false_eq_true, if_false, hmb, hnb, Bool.or_false, Bool.false_or,
        he, hguard, and_true, if_true, true_and]
      rw [hrec]
      simp only [Nat.add_sub_cancel]
      rw [rangeMapShift (fun x => baseDelay * 2 ^ x + jitter x) m i]

/-- C4 (amended): with the token aborted before the first attempt the retry
envelope makes zero Gateway calls and fails with the distinguished abort; a
Gateway failing with a rate-limit/overload error on every attempt produces
exactly N attempts with backoff delays baseDelay * 2 ^ i + jitter i between
consecutive attempts, and the final error raised is the underlying
rate-limit error rethrown by the last attempt (not the retry-exhausted
error, which is unreachable when at least one attempt is configured). -/
theorem c4_retry_envelope_amended (e : JsError) (jitter : Nat → Nat)
    (retries baseDelay : Nat) (hr : 1 ≤ retries)
    (he : (isRateLimit e || isOverloaded e) = true)
    (hm : e.message ≠ "USER_ABORTED") (hn : e.name ≠ "AbortError") :
    callGeminiWithRetry (α := Unit) (fun _ => AttemptOutcome.err e) (fun _ => false)
        (fun _ => false) jitter retries baseDelay =
      ⟨RetryOutcome.thrown e, retries,
       (List.range (retries - 1)).map (fun k => baseDelay * 2 ^ k + jitter k)⟩ ∧
    (∀ attempt : Nat → AttemptOutcome Unit, ∀ abortedPre abortedPost : Nat → Bool,
      abortedPre 0 = true →
      callGeminiWithRetry attempt abortedPre abortedPost jitter retries baseDelay =
        ⟨RetryOutcome.userAborted, 0, []⟩) := by
  constructor
  · have h := retryGo_rateLimited e jitter retries baseDelay he hm hn retries 0 (by omega) hr
    unfold callGeminiWithRetry
    rw [h]
    simp
  · intro attempt abortedPre abortedPost h0
    unfold callGeminiWithRetry
    obtain ⟨m, rfl⟩ : ∃ m, retries = m + 1 := ⟨retries - 1, by omega⟩
    rw [callGeminiWithRetryGo]
    simp [h0]

/-- C6 (amended): the Intent Classifier defaults to the deep-research
classification only when the Gateway response text is empty or absent; a
non-empty response that all four lenient-parse strategies reject makes the
call throw the parse error to the caller after a single attempt (the parse
error is not classified as retryable). -/
theorem c6_classifier_default_amended (jitter : Nat → Nat) :
    classifyUserIntent jitter none = ⟨RetryOutcome.ok defaultIntentJson, 1, []⟩ ∧
    classifyUserIntent jitter (some "") = ⟨RetryOutcome.ok defaultIntentJson, 1, []⟩ ∧
    (∀ t : String, t ≠ "" →
      cleanAndParseJSON t = Except.error "Unable to parse JSON structure from response." →
      classifyUserIntent jitter (some t) =
        ⟨RetryOutcome.thrown ⟨none, "Error", "Unable to parse JSON structure from response."⟩,
         1, []⟩) := by
  refine ⟨rfl, rfl, ?_⟩
  intro t ht hparse
  have ha : classifyAttempt (some t) =
      AttemptOutcome.err ⟨none, "Error", "Unable to parse JSON structure from response."⟩ := by
    simp only [classifyAttempt]
    rw [if_neg ht, hparse]
  have h1 : isRateLimit ⟨none, "Error", "Unable to parse JSON structure from response."⟩ = false := by
    decide
  have h2 : isOverloaded ⟨none, "Error", "Unable to parse JSON structure from response."⟩ = false := by
    decide
  have h3 : (("Unable to parse JSON structure from response." : String) == "USER_ABORTED") = false := by
    decide
  have h4 : (("Error" : String) == "AbortError") = false := by
    decide
  unfold classifyUserIntent callGeminiWithRetry
  rw [callGeminiWithRetryGo]
  simp [ha, h1, h2, h3, h4]
/-- Helper: mapSet on a present key keeps the key list unchanged. -/
theorem mapSet_keys_of_has (m : List (String × AgentSession)) (k : String) (v : AgentSession)
    (h : mapHas m k = true) :
    (mapSet m k v).map Prod.fst = m.map Prod.fst := by
  unfold mapSet
  rw [if_pos h, List.map_map]
  refine List.map_congr_left ?_
  intro p _
  by_cases hp : p.1 = k
  · simp [hp]
  · simp [hp]

/-- Helper: mapSet on an absent key appends the key. -/
theorem mapSet_keys_of_not (m : List (String × AgentSession)) (k : String) (v : AgentSession)
    (h : mapHas m k = false) :
    (mapSet m k v).map Prod.fst = m.map Prod.fst ++ [k] := by
  unfold mapSet
  rw [if_neg (by simp [h])]
  simp

/-- Helper: an absent key is not among the keys. -/
theorem not_mem_keys_of_not_has (m : List (String × AgentSession)) (k : String)
    (h : mapHas m k = false) : k ∉ m.map Prod.fst := by
  unfold mapHas at h
  intro hmem
  rcases List.mem_map.mp hmem with ⟨p, hp, rfl⟩
  have := List.any_eq_false.mp h p hp
  simp at this


/-- Helper: mapSet preserves key uniqueness. -/
theorem mapSet_nodup (m : List (String × AgentSession)) (k : String) (v : AgentSession)
    (h : (m.map Prod.fst).Nodup) : ((mapSet m k v).map Prod.fst).Nodup := by
  cases hk : mapHas m k with
  | true => rw [mapSet_keys_of_has m k v hk]; exact h
  | false =>
    rw [mapSet_keys_of_not m k v hk]
    refine List.Nodup.append h (List.nodup_singleton k) ?_
    intro a ha hb
    simp only [List.mem_singleton] at hb
    exact not_mem_keys_of_not_has m k hk (hb ▸ ha)

/-- Helper: mapSet at one key does not change lookups at another key. -/
theorem mapGet_mapSet_ne (m : List (String × AgentSession)) (k q : String) (v : AgentSession)
    (h : q ≠ k) : mapGet (mapSet m k v) q = mapGet m q := by
  unfold mapGet mapSet
  by_cases hk : mapHas m k = true
  · rw [if_pos hk]
    clear hk
    induction m with
    | nil => rfl
    | cons p m ih =>
      simp only [List.map_cons]
      by_cases hp1 : p.1 = q
      · have hpk : ¬ p.1 = k := by rw [hp1]; exact h
        have h1 : List.find? (fun r => decide (r.1 = q))
            ((if p.1 = k then (k, v) else p) :: (m.map (fun r => if r.1 = k then (k, v) else r))) =
            some (if p.1 = k then (k, v) else p) :=
          List.find?_cons_of_pos _ (by rw [if_neg hpk]; simp [hp1])
        have h2 : List.find? (fun r => decide (r.1 = q)) (p :: m) = some p :=
          List.find?_cons_of_pos _ (by simp [hp1])
        rw [h1, h2]
        simp [if_neg hpk]
      · have hfp : ¬((if p.1 = k then (k, v) else p).1 = q) := by
          by_cases hpk : p.1 = k
          · rw [if_pos hpk]
            exact fun hq => h hq.symm
          · rw [if_neg hpk]
            exact hp1
        have h1 : List.find? (fun r => decide (r.1 = q))
            ((if p.1 = k then (k, v) else p) :: (m.map (fun r => if r.1 = k then (k, v) else r))) =
            List.find? (fun r => decide (r.1 = q)) (m.map (fun r => if r.1 = k then (k, v) else r)) :=
          List.find?_cons_of_neg _ (by simp [hfp])
        have h2 : List.find? (fun r => decide (r.1 = q)) (p :: m) =
            List.find? (fun r => decide (r.1 = q)) m :=
          List.find?_cons_of_neg _ (by simp [hp1])
        rw [h1, h2]
        exact ih
  · rw [if_neg hk]
    clear hk
    induction m with
    | nil =>
      simp only [List.nil_append]
      have h1 : List.find? (fun r => decide (r.1 = q)) [(k, v)] = List.find? (fun r => decide (r.1 = q)) [] :=
        List.find?_cons_of_neg _ (by simp; exact fun hq => h hq.symm)
      rw [h1]
    | cons p m ih =>
      simp only [List.cons_append]
      by_cases hp1 : p.1 = q
      · have h1 : List.find? (fun r => decide (r.1 = q)) (p :: (m ++ [(k, v)])) = some p :=
          List.find?_cons_of_pos _ (by simp [hp1])
        have h2 : List.find? (fun r => decide (r.1 = q)) (p :: m) = some p :=
          List.find?_cons_of_pos _ (by simp [hp1])
        rw [h1, h2]
      · have h1 : List.find? (fun r => decide (r.1 = q)) (p :: (m ++ [(k, v)])) =
            List.find? (fun r => decide (r.1 = q)) (m ++ [(k, v)]) :=
          List.find?_cons_of_neg _ (by simp [hp1])
        have h2 : List.find? (fun r => decide (r.1 = q)) (p :: m) =
            List.find? (fun r => decide (r.1 = q)) m :=
          List.find?_cons_of_neg _ (by simp [hp1])
        rw [h1, h2]
        exact ih

/-- Helper: the briefing fold preserves key uniqueness. -/
theorem foldBrief_nodup (briefOk : String → Bool) :
    ∀ (files : List String) (st : SwarmState),
      (st.agentSwarm.map Prod.fst).Nodup →
      (((files.foldl (briefDocumentExpert briefOk) st).agentSwarm.map Prod.fst)).Nodup := by
  intro files
  induction files with
  | nil => intro st h; exact h
  | cons f files ih =>
    intro st h
    refine ih _ ?_
    unfold briefDocumentExpert chatsCreate
    by_cases hb : briefOk f = true
    · simp only [hb, if_true]
      exact mapSet_nodup _ _ _ h
    · simp only [hb]
      simp at hb
      simp [hb]
      exact h

/-- Helper: the briefing fold does not touch entries whose name is not in
the file list. -/
theorem foldBrief_get_ne (briefOk : String → Bool) :
    ∀ (files : List String) (st : SwarmState) (q : String), q ∉ files →
      mapGet ((files.foldl (briefDocumentExpert briefOk) st).agentSwarm) q =
        mapGet st.agentSwarm q := by
  intro files
  induction files with
  | nil => intro st q _; rfl
  | cons f files ih =>
    intro st q hq
    have hqf : q ≠ f := fun hqq => hq (by simp [hqq])
    have hrest : q ∉ files := fun hmem => hq (by simp [hmem])
    rw [List.foldl_cons, ih _ q hrest]
    unfold briefDocumentExpert chatsCreate
    by_cases hb : briefOk f = true
    · simp only [hb, if_true]
      exact mapGet_mapSet_ne _ _ _ _ hqf
    · simp only [hb]
      simp at hb
      simp [hb]

/-- Helper: rewriting a map entry at one key leaves the presence test of a
different key unchanged. -/
theorem any_map_set_ne (k q : String) (v : AgentSession) :
    ∀ m : List (String × AgentSession),
      ((m.map (fun p => if p.1 = k then (k, v) else p)).any fun p => p.1 = q) =
        (m.any fun p => p.1 = q) := by
  intro m
  induction m with
  | nil => rfl
  | cons p m ih =>
    simp only [List.map_cons, List.any_cons]
    rw [ih]
    refine congrArg₂ _ ?_ rfl
    by_cases hpk : p.1 = k
    · rw [if_pos hpk, hpk]
    · rw [if_neg hpk]

/-- Helper: mapSet at one key does not change presence of another key. -/
theorem mapHas_mapSet_ne (m : List (String × AgentSession)) (k q : String) (v : AgentSession)
    (h : q ≠ k) : mapHas (mapSet m k v) q = mapHas m q := by
  unfold mapSet
  by_cases hk : mapHas m k = true
  · rw [if_pos hk]
    unfold mapHas
    exact any_map_set_ne k q v m
  · rw [if_neg hk]
    unfold mapHas
    rw [List.any_append]
    have hone : ([(k, v)].any fun p => p.1 = q) = false := by
      simp
      exact fun hq => h hq.symm
    rw [hone]
    simp

/-- Helper: the standing-expert block preserves key uniqueness. -/
theorem ensureStanding_nodup (name : String) (s : SwarmState)
    (h : (s.agentSwarm.map Prod.fst).Nodup) :
    ((ensureStandingExpert name s).agentSwarm.map Prod.fst).Nodup := by
  unfold ensureStandingExpert chatsCreate
  by_cases hk : mapHas s.agentSwarm name = true
  · simp only [hk, if_true]
    exact h
  · simp only [Bool.not_eq_true] at hk
    simp only [hk, Bool.false_eq_true, if_false]
    exact mapSet_nodup _ _ _ h

/-- Helper: the standing-expert block does not change lookups at other keys. -/
theorem ensureStanding_get_ne (name q : String) (s : SwarmState) (h : q ≠ name) :
    mapGet (ensureStandingExpert name s).agentSwarm q = mapGet s.agentSwarm q := by
  unfold ensureStandingExpert chatsCreate
  by_cases hk : mapHas s.agentSwarm name = true
  · simp only [hk, if_true]
  · simp only [Bool.not_eq_true] at hk
    simp only [hk, Bool.false_eq_true, if_false]
    exact mapGet_mapSet_ne _ _ _ _ h

/-- Helper: the standing-expert block does not change presence at other keys. -/
theorem ensureStanding_has_ne (name q : String) (s : SwarmState) (h : q ≠ name) :
    mapHas (ensureStandingExpert name s).agentSwarm q = mapHas s.agentSwarm q := by
  unfold ensureStandingExpert chatsCreate
  by_cases hk : mapHas s.agentSwarm name = true
  · simp only [hk, if_true]
  · simp only [Bool.not_eq_true] at hk
    simp only [hk, Bool.false_eq_true, if_false]
    exact mapHas_mapSet_ne _ _ _ _ h

/-- Helper: the standing-expert block is a no-op when the name is present. -/
theorem ensureStanding_noop (name : String) (s : SwarmState)
    (h : mapHas s.agentSwarm name = true) : ensureStandingExpert name s = s := by
  unfold ensureStandingExpert
  simp only [h, if_true]

/-- C9 (amended): expert names in the registry stay unique across
swarm-initialization calls, and re-initializing while a standing expert
(Web Expert / URL Expert) already exists leaves that session untouched; the
idempotence does not extend to document names, whose re-initialization
overwrites the session (see the counterexample). -/
theorem c9_registry_idempotence_amended (briefOk : String → Bool) (files : List String) (s : SwarmState) :
    ((getSwarmStatus s).Nodup → (getSwarmStatus (initAgentSwarm briefOk files s)).Nodup) ∧
    (mapHas s.agentSwarm "Web Expert" = true → "Web Expert" ∉ files →
      mapGet (initAgentSwarm briefOk files s).agentSwarm "Web Expert" =
        mapGet s.agentSwarm "Web Expert") ∧
    (mapHas s.agentSwarm "URL Expert" = true → "URL Expert" ∉ files →
      mapGet (initAgentSwarm briefOk files s).agentSwarm "URL Expert" =
        mapGet s.agentSwarm "URL Expert") := by
  simp only [initAgentSwarm]
  refine ⟨?_, ?_, ?_⟩
  · intro h
    refine foldBrief_nodup briefOk files _ ?_
    exact ensureStanding_nodup _ _ (ensureStanding_nodup _ _ h)
  · intro hW hWf
    rw [foldBrief_get_ne briefOk files _ "Web Expert" hWf]
    rw [ensureStanding_get_ne "URL Expert" "Web Expert" _ (by decide)]
    rw [ensureStanding_noop "Web Expert" s hW]
  · intro hU hUf
    rw [foldBrief_get_ne briefOk files _ "URL Expert" hUf]
    have hU1 : mapHas (ensureStandingExpert "Web Expert" s).agentSwarm "URL Expert" = true := by
      rw [ensureStanding_has_ne "Web Expert" "URL Expert" s (by decide)]
      exact hU
    rw [ensureStanding_noop "URL Expert" _ hU1]
    exact ensureStanding_get_ne "Web Expert" "URL Expert" s (by decide)


/-- C3 helper: the append-extension relation is transitive. -/
theorem accExt_trans {a b c : List TaskResult} (h1 : accExt a b) (h2 : accExt b c) :
    accExt a c := by
  rcases h1 with ⟨t1, rfl⟩
  rcases h2 with ⟨t2, rfl⟩
  exact ⟨t1 ++ t2, by simp⟩

/-- C3 helper: a chain of append-extensions reaches its last snapshot from
the head. -/
theorem accExt_getLastD_of_chain :
    ∀ (l : List (List TaskResult)) (a : List TaskResult),
      List.Chain' accExt (a :: l) → accExt a (l.getLastD a) := by
  intro l
  induction l with
  | nil => intro a _; exact ⟨[], by simp⟩
  | cons b l ih =>
    intro a h
    rw [List.chain'_cons] at h
    rw [List.getLastD_cons]
    exact accExt_trans h.1 (ih b h.2)

/-- C3 helper: gluing two snapshot chains at the shared middle state. -/
theorem chain_accExt_append :
    ∀ (l1 : List (List TaskResult)) (a b : List TaskResult) (l2 : List (List TaskResult)),
      List.Chain' accExt (a :: l1) → b = l1.getLastD a → List.Chain' accExt (b :: l2) →
      List.Chain' accExt (a :: (l1 ++ l2)) := by
  intro l1
  induction l1 with
  | nil =>
    intro a b l2 _ hb h2
    have hba : b = a := by simpa using hb
    rw [List.nil_append]
    exact hba ▸ h2
  | cons c l1 ih =>
    intro a b l2 h1 hb h2
    rw [List.chain'_cons] at h1
    rw [List.getLastD_cons] at hb
    have := ih c b l2 h1.2 hb h2
    rw [List.cons_append, List.chain'_cons]
    exact ⟨h1.1, this⟩

/-- C3 helper: every research-phase pass only appends to the accumulated
results, its snapshot trace is an append chain, and its final accumulated
list is the last snapshot. -/
theorem researchPhaseGo_trace (exec : OrchestratorPlan → Nat → List TaskResult)
    (evalR : OrchestratorPlan → List TaskResult → Nat → ResearchEvaluation) :
    ∀ (remaining : Nat) (plan : OrchestratorPlan) (acc : List TaskResult) (round : Nat),
      List.Chain' accExt (acc :: (researchPhaseGo exec evalR plan acc round remaining).accTrace) ∧
      (researchPhaseGo exec evalR plan acc round remaining).accumulatedResults =
        (researchPhaseGo exec evalR plan acc round remaining).accTrace.getLastD acc := by
  intro remaining
  induction remaining with
  | zero =>
    intro plan acc round
    simp [researchPhaseGo]
  | succ n ih =>
    intro plan acc round
    simp only [researchPhaseGo]
    split
    · split
      · have hr := ih ((evalR plan (acc ++ exec plan round) round).new_plan.getD plan)
          (acc ++ exec plan round) (round + 1)
        refine ⟨?_, ?_⟩
        · rw [List.chain'_cons]
          exact ⟨⟨exec plan round, rfl⟩, hr.1⟩
        · rw [List.getLastD_cons]
          exact hr.2
      · constructor
        · rw [List.chain'_cons]
          exact ⟨⟨exec plan round, rfl⟩, List.chain'_singleton _⟩
        · rfl
    · constructor
      · rw [List.chain'_cons]
        exact ⟨⟨exec plan round, rfl⟩, List.chain'_singleton _⟩
      · rfl
/-- C3 helper: the incremental branch only appends and never restarts. -/
theorem incrementalBranch_ok (o : Oracles) (attempt : Nat) (currentPlan : OrchestratorPlan)
    (acc acc0 : List TaskResult) (researchRound : Nat) (trace : List (List TaskResult))
    (arbitration : LeadArbitration)
    (hch : List.Chain' accExt (acc0 :: trace)) (hlast : acc = trace.getLastD acc0)
    (hatt : attempt < MAX_RETRYS) :
    ∀ s : QCState, s.accumulatedResults = acc0 → s.attempt = attempt →
      stepOk s (incrementalBranch o attempt currentPlan acc researchRound trace arbitration) := by
  intro s hsacc hsatt
  simp only [incrementalBranch]
  by_cases hht : (getAllTasks (arbitration.remediation_plan.getD currentPlan)).length > 0
  · simp only [hht, if_true]
    have hch2 : List.Chain' accExt (acc0 ::
        (trace ++ [acc ++ o.execIncr (arbitration.remediation_plan.getD currentPlan) attempt])) := by
      refine chain_accExt_append trace acc0 acc _ hch hlast ?_
      rw [List.chain'_cons]
      exact ⟨⟨_, rfl⟩, List.chain'_singleton _⟩
    have hlast2 : (trace ++ [acc ++ o.execIncr (arbitration.remediation_plan.getD currentPlan) attempt]).getLastD acc0 =
        acc ++ o.execIncr (arbitration.remediation_plan.getD currentPlan) attempt :=
      List.getLastD_concat _ _ _
    split
    · split
      · exact ⟨hsacc ▸ hch2, by rw [hsacc, hlast2]⟩
      · exact ⟨hsacc ▸ hch2, by rw [hsacc, hlast2]⟩
    · refine ⟨hsacc ▸ hch2, by rw [hsacc, hlast2], by rw [hsatt], by rw [hsatt]; exact hatt, ?_⟩
      intro htag
      exact absurd htag (by simp)
  · simp only [hht, if_false]
    split
    · split
      · exact ⟨hsacc ▸ hch, by rw [hsacc, ← hlast]⟩
      · exact ⟨hsacc ▸ hch, by rw [hsacc, ← hlast]⟩
    · refine ⟨hsacc ▸ hch, by rw [hsacc, ← hlast], by rw [hsatt], by rw [hsatt]; exact hatt, ?_⟩
      intro htag
      exact absurd htag (by simp)

/-- C3 helper: the rejected branch resets the round counter, keeps the
accumulated results, and increments attempt. -/
theorem rejectedBranch_ok (o : Oracles) (attempt : Nat) (currentPlan : OrchestratorPlan)
    (acc acc0 : List TaskResult) (trace : List (List TaskResult))
    (arbitration : LeadArbitration)
    (hch : List.Chain' accExt (acc0 :: trace)) (hlast : acc = trace.getLastD acc0)
    (hatt : attempt < MAX_RETRYS) (hv : arbitration.verdict = Verdict.REJECTED) :
    ∀ s : QCState, s.accumulatedResults = acc0 → s.attempt = attempt →
      stepOk s (rejectedBranch o attempt currentPlan acc trace arbitration) := by
  intro s hsacc hsatt
  simp only [rejectedBranch]
  have hch2 : List.Chain' accExt (acc0 :: (trace ++ [acc])) := by
    refine chain_accExt_append trace acc0 acc _ hch hlast ?_
    rw [List.chain'_cons]
    exact ⟨⟨[], by simp⟩, List.chain'_singleton _⟩
  refine ⟨hsacc ▸ hch2, by rw [hsacc]; exact (List.getLastD_concat _ _ _).symm,
    by rw [hsatt], by rw [hsatt]; exact hatt, ?_⟩
  intro _
  refine ⟨hv, rfl, ?_⟩
  have hext := accExt_getLastD_of_chain trace acc0 hch
  rw [← hlast] at hext
  rw [hsacc]
  exact hext

/-- C3 helper: every driver iteration is sound. -/
theorem driverStep_ok (o : Oracles) (s : QCState) : stepOk s (driverStep o s) := by
  have hrp := researchPhaseGo_trace o.exec o.evalR (MAX_RESEARCH_ROUNDS + 1 - s.researchRound)
    s.currentPlan s.accumulatedResults s.researchRound
  simp only [driverStep, researchPhase]
  set rp := researchPhaseGo o.exec o.evalR s.currentPlan s.accumulatedResults s.researchRound
    (MAX_RESEARCH_ROUNDS + 1 - s.researchRound) with hrpdef
  split
  · rename_i hinc
    exact incrementalBranch_ok o s.attempt rp.currentPlan rp.accumulatedResults
      s.accumulatedResults rp.researchRound rp.accTrace _ hrp.1 hrp.2 hinc.2.1 s rfl rfl
  · split
    · rename_i hrej
      exact rejectedBranch_ok o s.attempt rp.currentPlan rp.accumulatedResults
        s.accumulatedResults rp.accTrace _ hrp.1 hrp.2 hrej.2.1 hrej.1 s rfl rfl
    · split
      · exact ⟨hrp.1, hrp.2⟩
      · exact ⟨hrp.1, hrp.2⟩

/-- C3 helper: whatever the oracles answer, a successful driver run only
appends to the accumulated results. -/
theorem driverLoopFuel_chain :
    ∀ (fuel : Nat) (o : Oracles) (s : QCState) (m : FinalMsg) (s3 : QCState)
      (tr : List (List TaskResult)),
      driverLoopFuel o s fuel = some (m, s3, tr) →
      List.Chain' accExt (s.accumulatedResults :: tr) ∧
      accExt s.accumulatedResults s3.accumulatedResults := by
  intro fuel
  induction fuel with
  | zero =>
    intro o s m s3 tr h
    exact Option.noConfusion h
  | succ n ih =>
    intro o s m s3 tr h
    have hstep := driverStep_ok o s
    rw [driverLoopFuel] at h
    cases hd : driverStep o s with
    | next s2 tr1 arb tag =>
      rw [hd] at h hstep
      obtain ⟨hch, hlast, _, _, _⟩ := hstep
      simp only [Option.map_eq_some'] at h
      rcases h with ⟨⟨m2, s32, tr2⟩, hr, heq⟩
      simp only [Prod.mk.injEq] at heq
      obtain ⟨he1, he2, he3⟩ := heq
      have hrec := ih o s2 m2 s32 tr2 hr
      constructor
      · rw [← he3]
        exact chain_accExt_append tr1 s.accumulatedResults s2.accumulatedResults tr2
          hch hlast hrec.1
      · rw [← he2]
        refine accExt_trans ?_ hrec.2
        have hx := accExt_getLastD_of_chain tr1 s.accumulatedResults hch
        rw [← hlast] at hx
        exact hx
    | done m2 s2 tr1 arb =>
      rw [hd] at h hstep
      obtain ⟨hch, hlast⟩ := hstep
      have h2 : some (m2, s2, tr1) = some (m, s3, tr) := h
      simp only [Option.some.injEq, Prod.mk.injEq] at h2
      obtain ⟨he1, he2, he3⟩ := h2
      constructor
      · rw [← he3]
        exact hch
      · rw [← he2]
        have hx := accExt_getLastD_of_chain tr1 s.accumulatedResults hch
        rw [← hlast] at hx
        exact hx

/-- C3 helper: the fuel given to the driver loop always suffices, because
every continue branch increments attempt below the MAX_RETRYS cap. -/
theorem driverLoopFuel_isSome :
    ∀ (fuel : Nat) (o : Oracles) (s : QCState), MAX_RETRYS + 1 - s.attempt < fuel →
      (driverLoopFuel o s fuel).isSome = true := by
  intro fuel
  induction fuel with
  | zero => intro o s h; omega
  | succ n ih =>
    intro o s h
    rw [driverLoopFuel]
    cases hd : driverStep o s with
    | done m s2 tr arb => simp
    | next s2 tr arb tag =>
      have hstep := driverStep_ok o s
      rw [hd] at hstep
      obtain ⟨_, _, hatt1, hatt2, _⟩ := hstep
      have hrec := ih o s2 (by unfold MAX_RETRYS at h hatt2 ⊢; omega)
      simp only []
      cases hopt : driverLoopFuel o s2 n with
      | none => rw [hopt] at hrec; simp at hrec
      | some r => simp [hopt]

/-- C3 helper: the driver as entered by the pipeline always terminates with
a result. -/
theorem handleExecute_isSome (o : Oracles) (p : OrchestratorPlan) :
    (handleExecuteWithQualityControl o p).isSome = true := by
  unfold handleExecuteWithQualityControl
  exact driverLoopFuel_isSome (MAX_RETRYS + 2) o ⟨p, 0, [], 0⟩ (by norm_num [MAX_RETRYS])

/-- C3: within one pipeline run the accumulated result set only ever grows.
Every snapshot trace produced by a driver iteration or a whole driver run is
a chain of append-extensions starting at the incoming accumulated list (so
its length is non-decreasing and no element is ever removed), and the
rejected-restart branch resets the research-round counter to 0 and swaps the
working plan while the accumulated results are preserved as an
append-extension of the incoming ones. -/
theorem c3_accumulated_results_monotone (o : Oracles) (s s2 : QCState)
    (tr tr2 : List (List TaskResult)) (arb : LeadArbitration) (fuel : Nat)
    (m : FinalMsg) (s3 : QCState) :
    (driverStep o s = StepResult.next s2 tr arb BranchTag.rejectedRestart →
      arb.verdict = Verdict.REJECTED ∧ s2.researchRound = 0 ∧
      List.Chain' accExt (s.accumulatedResults :: tr) ∧
      accExt s.accumulatedResults s2.accumulatedResults) ∧
    (driverLoopFuel o s fuel = some (m, s3, tr2) →
      List.Chain' accExt (s.accumulatedResults :: tr2) ∧
      accExt s.accumulatedResults s3.accumulatedResults) := by
  constructor
  · intro h
    have hstep := driverStep_ok o s
    rw [h] at hstep
    obtain ⟨hch, _, _, _, htag⟩ := hstep
    obtain ⟨hv, hr0, hext⟩ := htag rfl
    exact ⟨hv, hr0, hch, hext⟩
  · intro h
    exact driverLoopFuel_chain fuel o s m s3 tr2 h

/-- C8: the lenient JSON parser succeeds on raw JSON (strategy 1 covers any
input JSON.parse accepts), on JSON fenced in a markdown code block, and on
truncated JSON by brace/bracket/quote balancing, matching the two quoted
examples; it raises the distinguished unparseable error only when all four
strategies fail, as on the input garbage. -/
theorem c8_lenient_json_repair :
    cleanAndParseJSON "```json\n\x7b\"a\":1\x7d\n```" =
      Except.ok (JsonVal.obj [("a", JsonVal.num "1")]) ∧
    cleanAndParseJSON "\x7b\"a\": [1,2" =
      Except.ok (JsonVal.obj [("a", JsonVal.arr [JsonVal.num "1", JsonVal.num "2"])]) ∧
    cleanAndParseJSON "garbage" =
      Except.error "Unable to parse JSON structure from response." ∧
    (∀ (t : String) (v : JsonVal), jsonParse t = some v →
      cleanAndParseJSON t = Except.ok v) ∧
    (∀ t : String,
      cleanAndParseJSON t = Except.error "Unable to parse JSON structure from response." →
      jsonParse t = none ∧ jsonParse (cleanedOf t) = none ∧
      (extractObjectSpan (cleanedOf t)).bind jsonParse = none ∧
      jsonParse (balanceJSON (cleanedOf t)) = none) := by
  refine ⟨rfl, rfl, rfl, ?_, ?_⟩
  · intro t v h
    by_cases ht : t = ""
    · subst ht
      have hnone : jsonParse "" = none := rfl
      rw [hnone] at h
      exact Option.noConfusion h
    · unfold cleanAndParseJSON
      rw [if_neg ht, h]
  · intro t herr
    simp only [cleanAndParseJSON] at herr
    split at herr
    · injection herr with hmsg
      exact absurd hmsg (by decide)
    · split at herr
      · exact Except.noConfusion herr
      · rename_i hp1
        split at herr
        · exact Except.noConfusion herr
        · rename_i hp2
          split at herr
          · exact Except.noConfusion herr
          · rename_i hp3
            split at herr
            · exact Except.noConfusion herr
            · rename_i hp4
              exact ⟨hp1, hp2, hp3, hp4⟩

/-- C4 counterexample: with the source defaults (3 attempts, 2000ms base
delay) and a permanently rate-limited Gateway, exactly 3 attempts occur with
the documented backoff, but the final error is the rate-limit error itself
rethrown, not the distinguished retry-exhausted error claimed by the spec. -/
theorem c4_retry_exhausted_counterexample :
    callGeminiWithRetry (α := Unit)
        (fun _ => AttemptOutcome.err ⟨some 429, "Error", "quota exceeded"⟩)
        (fun _ => false) (fun _ => false) (fun _ => 0) 3 2000 =
      ⟨RetryOutcome.thrown ⟨some 429, "Error", "quota exceeded"⟩, 3, [2000, 4000]⟩ ∧
    (callGeminiWithRetry (α := Unit)
        (fun _ => AttemptOutcome.err ⟨some 429, "Error", "quota exceeded"⟩)
        (fun _ => false) (fun _ => false) (fun _ => 0) 3 2000).outcome ≠
      RetryOutcome.retryExhausted := by
  exact ⟨by decide, by decide⟩

/-- C6 counterexample: the Gateway response text garbage is non-empty and
unparsable, yet the classifier call raises the parse error instead of
returning the deep-research default, refuting the claim that every
empty-or-unparsable response defaults. -/
theorem c6_unparsable_default_counterexample :
    classifyUserIntent (fun _ => 0) (some "garbage") =
      ⟨RetryOutcome.thrown ⟨none, "Error", "Unable to parse JSON structure from response."⟩,
       1, []⟩ ∧
    (classifyUserIntent (fun _ => 0) (some "garbage")).outcome ≠
      RetryOutcome.ok defaultIntentJson := by
  refine ⟨rfl, ?_⟩
  have hred : (classifyUserIntent (fun _ => 0) (some "garbage")).outcome =
      RetryOutcome.thrown ⟨none, "Error", "Unable to parse JSON structure from response."⟩ :=
    rfl
  rw [hred]
  simp

/-- C9 counterexample: initializing the swarm twice with the same document
name is not a no-op: the second call allocates a fresh chat session and
overwrites the existing entry under that name, so the existing session is
not left unchanged. -/
theorem c9_rebrief_overwrite_counterexample :
    mapGet (initAgentSwarm (fun _ => true) ["a.pdf"]
        (initAgentSwarm (fun _ => true) ["a.pdf"] ⟨[], 0⟩)).agentSwarm "a.pdf" ≠
      mapGet (initAgentSwarm (fun _ => true) ["a.pdf"] ⟨[], 0⟩).agentSwarm "a.pdf" ∧
    (initAgentSwarm (fun _ => true) ["a.pdf"]
        (initAgentSwarm (fun _ => true) ["a.pdf"] ⟨[], 0⟩)).nextChatId ≠
      (initAgentSwarm (fun _ => true) ["a.pdf"] ⟨[], 0⟩).nextChatId := by
  exact ⟨by decide, by decide⟩

/-- Witness for C1 at concrete oracles that always debate. -/
theorem c1_debate_bound_witness :
    debateLoop (fun _ _ => ⟨Verdict.DEBATE, "I disagree", none, none⟩)
        (fun _ => ⟨true, false, "revised opinion"⟩) ⟨true, false, "first opinion"⟩ =
      ⟨forcedDebateArbitration, 3, 2⟩ :=
  (c1_debate_bound (fun _ _ => ⟨Verdict.DEBATE, "I disagree", none, none⟩)
    (fun _ => ⟨true, false, "revised opinion"⟩) ⟨true, false, "first opinion"⟩
    (fun _ _ => rfl)).1

/-- Witness for C2 at a concrete simple-fact plan and at a concrete
always-continue evaluator on a deep-analysis plan. -/
theorem c2_research_loop_bound_witness :
    ((researchPhase (fun _ _ => []) (fun _ _ _ => ⟨EvalStatus.FINALIZE, "done", none⟩)
        wSimplePlan [] 0).execRounds = 1 ∧
      (researchPhase (fun _ _ => []) (fun _ _ _ => ⟨EvalStatus.FINALIZE, "done", none⟩)
        wSimplePlan [] 0).evalCalls = 0) ∧
    ((researchPhase (fun _ _ => [])
        (fun _ _ _ => ⟨EvalStatus.CONTINUE_RESEARCH, "gap", some wDeepPlan⟩)
        wDeepPlan [] 0).execRounds = 5 ∧
      (researchPhase (fun _ _ => [])
        (fun _ _ _ => ⟨EvalStatus.CONTINUE_RESEARCH, "gap", some wDeepPlan⟩)
        wDeepPlan [] 0).evalCalls = 4) := by
  constructor
  · exact (c2_research_loop_bound (fun _ _ => [])
      (fun _ _ _ => ⟨EvalStatus.FINALIZE, "done", none⟩) wSimplePlan []).2.1 rfl
  · exact (c2_research_loop_bound (fun _ _ => [])
      (fun _ _ _ => ⟨EvalStatus.CONTINUE_RESEARCH, "gap", some wDeepPlan⟩) wDeepPlan []).2.2
      rfl (fun _ _ _ => rfl) (fun _ _ _ => rfl) (fun _ _ _ => rfl)

/-- Witness for C3 at concrete always-rejecting oracles: one rejected-restart
step and one full driver run. -/
theorem c3_accumulated_results_monotone_witness :
    (wArbReject.verdict = Verdict.REJECTED ∧
      (⟨wSimplePlan, 1, [], 0⟩ : QCState).researchRound = 0 ∧
      List.Chain' accExt (([] : List TaskResult) :: [[], []]) ∧
      accExt ([] : List TaskResult) []) ∧
    (List.Chain' accExt (([] : List TaskResult) :: [[], [], [], [], [], [], [], [], []]) ∧
      accExt ([] : List TaskResult) []) := by
  constructor
  · exact (c3_accumulated_results_monotone wOracles ⟨wSimplePlan, 0, [], 0⟩
      ⟨wSimplePlan, 1, [], 0⟩ [[], []] [[], [], [], [], [], [], [], [], []] wArbReject 6
      (FinalMsg.report "report") ⟨wSimplePlan, 4, [], 0⟩).1 rfl
  · exact (c3_accumulated_results_monotone wOracles ⟨wSimplePlan, 0, [], 0⟩
      ⟨wSimplePlan, 1, [], 0⟩ [[], []] [[], [], [], [], [], [], [], [], []] wArbReject 6
      (FinalMsg.report "report") ⟨wSimplePlan, 4, [], 0⟩).2 rfl

/-- Witness for C4 (amended) at the source defaults with a permanently
rate-limited Gateway and with a pre-aborted token. -/
theorem c4_retry_envelope_amended_witness :
    callGeminiWithRetry (α := Unit)
        (fun _ => AttemptOutcome.err ⟨some 429, "Error", "quota exceeded"⟩)
        (fun _ => false) (fun _ => false) (fun _ => 0) 3 2000 =
      ⟨RetryOutcome.thrown ⟨some 429, "Error", "quota exceeded"⟩, 3,
       (List.range 2).map (fun k => 2000 * 2 ^ k + 0)⟩ ∧
    callGeminiWithRetry (α := Unit) (fun _ => AttemptOutcome.ok ()) (fun _ => true)
        (fun _ => false) (fun _ => 0) 3 2000 = ⟨RetryOutcome.userAborted, 0, []⟩ := by
  constructor
  · exact (c4_retry_envelope_amended ⟨some 429, "Error", "quota exceeded"⟩ (fun _ => 0) 3 2000
      (by decide) (by decide) (by decide) (by decide)).1
  · exact (c4_retry_envelope_amended ⟨some 429, "Error", "quota exceeded"⟩ (fun _ => 0) 3 2000
      (by decide) (by decide) (by decide) (by decide)).2
      (fun _ => AttemptOutcome.ok ()) (fun _ => true) (fun _ => false) rfl

/-- Witness for C5 at a concrete three-task plan with an unknown expert, a
failing Gateway call, an aborting task, and a pre-aborted batch. -/
theorem c5_executor_failure_policy_witness :
    executePlanTasks false ["Doc_A.pdf"] wOutcome wExecPlan =
      Except.ok [⟨"Doc_A.pdf", "q1", "answer text"⟩,
        ⟨"Doc_Z.pdf", "q2", "Error: Expert not assigned."⟩,
        ⟨"Doc_A.pdf", "q3", "Error: Retrieval failed."⟩] ∧
    executePlanTasks false ["Doc_A.pdf"] (fun _ => TaskOutcome.aborted) wExecPlan =
      Except.error () ∧
    executePlanTasks true ["Doc_A.pdf"] wOutcome wExecPlan = Except.error () := by
  refine ⟨?_, ?_, ?_⟩
  · exact (c5_executor_failure_policy ["Doc_A.pdf"] wOutcome wExecPlan).1 (by decide)
  · exact (c5_executor_failure_policy ["Doc_A.pdf"] (fun _ => TaskOutcome.aborted)
      wExecPlan).2.1 ⟨wTaskKnown, by decide, by decide, rfl⟩
  · exact (c5_executor_failure_policy ["Doc_A.pdf"] wOutcome wExecPlan).2.2 (by decide)

/-- Witness for C6 (amended) at an empty response and at the unparsable
response garbage. -/
theorem c6_classifier_default_amended_witness :
    classifyUserIntent (fun _ => 0) (some "") = ⟨RetryOutcome.ok defaultIntentJson, 1, []⟩ ∧
    classifyUserIntent (fun _ => 0) (some "garbage") =
      ⟨RetryOutcome.thrown ⟨none, "Error", "Unable to parse JSON structure from response."⟩,
       1, []⟩ := by
  constructor
  · exact (c6_classifier_default_amended (fun _ => 0)).2.1
  · exact (c6_classifier_default_amended (fun _ => 0)).2.2 "garbage" (by decide) rfl

/-- Witness for C7 at a clean scorecard and at a flagged-risk scorecard. -/
theorem c7_refiner_gate_witness :
    refinePlanWithAdvisor ⟨⟨5, 5, 5, 5, 5, 5⟩, [], []⟩ wDeepPlan wSimplePlan =
      ⟨wSimplePlan, 1, 0⟩ ∧
    refinePlanWithAdvisor ⟨⟨5, 5, 5, 5, 5, 5⟩, ["risk"], []⟩ wDeepPlan wSimplePlan =
      ⟨wDeepPlan, 1, 1⟩ := by
  constructor
  · exact (c7_refiner_gate ⟨⟨5, 5, 5, 5, 5, 5⟩, [], []⟩ wDeepPlan wSimplePlan).2.1
      (by decide) rfl
  · exact (c7_refiner_gate ⟨⟨5, 5, 5, 5, 5, 5⟩, ["risk"], []⟩ wDeepPlan wSimplePlan).2.2
      (Or.inr (by decide))

/-- Witness for C8 instantiating the two conditional conjuncts at concrete
inputs. -/
theorem c8_lenient_json_repair_witness :
    cleanAndParseJSON "\x7b\"a\":1\x7d" = Except.ok (JsonVal.obj [("a", JsonVal.num "1")]) ∧
    (jsonParse "garbage" = none ∧ jsonParse (cleanedOf "garbage") = none ∧
      (extractObjectSpan (cleanedOf "garbage")).bind jsonParse = none ∧
      jsonParse (balanceJSON (cleanedOf "garbage")) = none) := by
  constructor
  · exact c8_lenient_json_repair.2.2.2.1 "\x7b\"a\":1\x7d"
      (JsonVal.obj [("a", JsonVal.num "1")]) rfl
  · exact c8_lenient_json_repair.2.2.2.2 "garbage" rfl

/-- Witness for C9 (amended) at a concrete initialized swarm re-initialized
with a different document. -/
theorem c9_registry_idempotence_amended_witness :
    (getSwarmStatus (initAgentSwarm (fun _ => true) ["b.pdf"]
        (initAgentSwarm (fun _ => true) ["a.pdf"] ⟨[], 0⟩))).Nodup ∧
    mapGet (initAgentSwarm (fun _ => true) ["b.pdf"]
        (initAgentSwarm (fun _ => true) ["a.pdf"] ⟨[], 0⟩)).agentSwarm "Web Expert" =
      mapGet (initAgentSwarm (fun _ => true) ["a.pdf"] ⟨[], 0⟩).agentSwarm "Web Expert" ∧
    mapGet (initAgentSwarm (fun _ => true) ["b.pdf"]
        (initAgentSwarm (fun _ => true) ["a.pdf"] ⟨[], 0⟩)).agentSwarm "URL Expert" =
      mapGet (initAgentSwarm (fun _ => true) ["a.pdf"] ⟨[], 0⟩).agentSwarm "URL Expert" := by
  refine ⟨?_, ?_, ?_⟩
  · exact (c9_registry_idempotence_amended (fun _ => true) ["b.pdf"]
      (initAgentSwarm (fun _ => true) ["a.pdf"] ⟨[], 0⟩)).1 (by decide)
  · exact (c9_registry_idempotence_amended (fun _ => true) ["b.pdf"]
      (initAgentSwarm (fun _ => true) ["a.pdf"] ⟨[], 0⟩)).2.1 (by decide) (by decide)
  · exact (c9_registry_idempotence_amended (fun _ => true) ["b.pdf"]
      (initAgentSwarm (fun _ => true) ["a.pdf"] ⟨[], 0⟩)).2.2 (by decide) (by decide)

/-- Witness for C10 at a concrete plan with no tasks. -/
theorem c10_empty_plan_no_dispatch_witness :
    executePlanTasks false ["Doc_A.pdf"] wOutcome wSimplePlan = Except.ok [] ∧
    dispatchedExperts false ["Doc_A.pdf"] wSimplePlan = [] :=
  c10_empty_plan_no_dispatch false ["Doc_A.pdf"] wOutcome wSimplePlan rfl
